import Mathlib

/-!
Shallow embedding of the proactive-trigger scheduling engine of the
`astrbot_plugin_Conversa` plugin (`src/main.py`): the quiet-hours test
(`_in_quiet` / `_parse_hhmm`), the fired-tag ledger
(`SessionState.has_fired` / `mark_fired`), the idle greeting check
(`_check_idle_greeting`), daily slots (`_parse_daily_slots` /
`_check_daily_greetings`), auto-unsubscribe (`_should_auto_unsubscribe`),
the reminder pass (`_check_reminders`), the per-tick driver (`_tick`) and
the debounce primitive (`_debounced_save_session_data`).

Modelling conventions: Python strings are `List Char`; epoch timestamps
(floats in the source) are `Int` seconds; a `datetime` is abstracted by
`DT` (its `%Y-%m-%d` rendering, its time of day in microseconds, and its
epoch timestamp).  Fired-tag strings are represented by the inductive
`Tag`, whose constructors correspond one-to-one to the injective string
formats built in the source (`"idle@..."`, `"daily<n>@..."`,
`"remind_daily_<id>@<date>"`, `"remind_once_<id>@<at>"`).  The outcome of
the side-effecting dispatcher (`_proactive_reply` /
`_proactive_reminder_reply`) and of `random.randint` is supplied by an
oracle `Orc`; every dispatch attempt is recorded in an event list `Ev`.
-/

namespace Conversa

/-- ASCII whitespace, modelling the character class stripped by Python
`str.strip()` (the source only ever feeds it ASCII config strings). -/
def isWS (c : Char) : Bool :=
  c = ' ' || c = '\t' || c = '\n' || c = '\r' || c = '\x0b' || c = '\x0c'

/-- Python `s.strip()` on a char list. -/
def strip (s : List Char) : List Char :=
  ((s.dropWhile isWS).reverse.dropWhile isWS).reverse

/-- ASCII decimal digit test (the `\d` of the source's regexes on its
ASCII config strings). -/
def isDigit (c : Char) : Bool := decide (48 ≤ c.toNat ∧ c.toNat ≤ 57)

/-- Numeric value of a digit character. -/
def dval (c : Char) : Nat := c.toNat - 48

/-- Embedding of `_parse_hhmm` (src/main.py:51-58): match of
`^([01]?\d|2[0-3]):([0-5]\d)$` against the stripped string, returning
(hour, minute).  The regex forces the string to be `H:MM` (4 chars) or
`HH:MM` (5 chars) with a two-digit hour of the shape `[01]\d` or
`2[0-3]`. -/
def parse_hhmm (s : List Char) : Option (Nat × Nat) :=
  match strip s with
  | [h1, c, m1, m2] =>
    if c = ':' ∧ isDigit h1 ∧ isDigit m1 ∧ dval m1 ≤ 5 ∧ isDigit m2 then
      some (dval h1, 10 * dval m1 + dval m2)
    else none
  | [h1, h2, c, m1, m2] =>
    if c = ':' ∧
        ((h1.toNat = 48 ∨ h1.toNat = 49) ∧ isDigit h2 ∨
          h1.toNat = 50 ∧ 48 ≤ h2.toNat ∧ h2.toNat ≤ 51) ∧
        isDigit m1 ∧ dval m1 ≤ 5 ∧ isDigit m2 then
      some (10 * dval h1 + dval h2, 10 * dval m1 + dval m2)
    else none
  | _ => none

/-- Python `quiet.split("-", 1)` guarded by `"-" in quiet`: the part
before the first dash and the rest, or `none` when the string holds no
dash (which also covers the empty string). -/
def splitDash : List Char → Option (List Char × List Char)
  | [] => none
  | c :: rest =>
    if c = '-' then some ([], rest)
    else
      match splitDash rest with
      | some (a, b) => some (c :: a, b)
      | none => none

/-- Abstraction of a timezone-aware `datetime` as used by the scheduler:
`dateStr` is its `strftime("%Y-%m-%d")` rendering, `tod` its time of day
in microseconds since midnight (Python `datetime.time` objects compare
exactly like this number), and `ts` its `.timestamp()` in seconds. -/
structure DT where
  dateStr : List Char
  tod : Nat
  ts : Int
deriving DecidableEq

/-- `now.hour` derived from the time of day. -/
def dtHour (d : DT) : Nat := d.tod / 3600000000

/-- `now.minute` derived from the time of day. -/
def dtMinute (d : DT) : Nat := d.tod % 3600000000 / 60000000

/-- A `datetime.time(h, m)` value on the microsecond scale used by `DT.tod`. -/
def toMicro (p : Nat × Nat) : Nat := (p.1 * 3600 + p.2 * 60) * 1000000

/-- Embedding of `_in_quiet` (src/main.py:61-76): split at the first dash,
parse both ends, then test the same-day inclusive window when start ≤ end
and the midnight-wrapping disjunction otherwise; any malformed input
yields `false`. -/
def in_quiet (now : DT) (q : List Char) : Bool :=
  match splitDash q with
  | none => false
  | some (a, b) =>
    match parse_hhmm a, parse_hhmm b with
    | some p1, some p2 =>
      if toMicro p1 ≤ toMicro p2 then
        decide (toMicro p1 ≤ now.tod ∧ now.tod ≤ toMicro p2)
      else
        decide (now.tod ≥ toMicro p1 ∨ now.tod ≤ toMicro p2)
    | _, _ => false

/-- `"%02d"` rendering of a small number (general decimal rendering when
it does not fit two digits, as in Python). -/
def pad2 (n : Nat) : List Char :=
  if n < 10 then '0' :: Nat.toDigits 10 n else Nat.toDigits 10 n

/-- `now.strftime("%Y-%m-%d %H:%M")`, built from the `DT` abstraction. -/
def minuteStr (d : DT) : List Char :=
  d.dateStr ++ ' ' :: (pad2 (dtHour d) ++ ':' :: pad2 (dtMinute d))

/-- Python string `<` (lexicographic by code point, a proper prefix being
smaller). -/
def strLt : List Char → List Char → Bool
  | _, [] => false
  | [], _ :: _ => true
  | a :: as, b :: bs => if a = b then strLt as bs else decide (a < b)

/-- Python string `>=`. -/
def strGe (a b : List Char) : Bool := ! strLt a b

/-- Whether `n` occurs at the head of the second list. -/
def startsWith : List Char → List Char → Bool
  | [], _ => true
  | _ :: _, [] => false
  | n :: ns, h :: hs => n = h && startsWith ns hs

/-- Python substring containment `needle in hay`. -/
def hasSub (needle : List Char) : List Char → Bool
  | [] => startsWith needle []
  | c :: rest => startsWith needle (c :: rest) || hasSub needle rest

/-- `s.split("|", 1)[0]`: the characters before the first `|`. -/
def beforeBar : List Char → List Char
  | [] => []
  | c :: rest => if c = '|' then [] else c :: beforeBar rest

/-- The dedup-tag strings of the source, one constructor per injective
format: `f"idle@{%Y-%m-%d %H:%M}"`, `f"daily{n}@{date} {HH:MM}"`,
`f"remind_daily_{id}@{date}"`, `f"remind_once_{id}@{at}"`. -/
inductive Tag where
  | idle (dateStr : List Char) (h : Nat) (m : Nat)
  | daily (slot : Nat) (dateStr : List Char) (h : Nat) (m : Nat)
  | remindDaily (id : List Char) (dateStr : List Char)
  | remindOnce (id : List Char) (atS : List Char)
deriving DecidableEq

/-- The reminder id carried by a reminder tag, `none` for the other tag
kinds; used to reason about which tags a reminder pass can create. -/
def remTagOf : Tag → Option (List Char)
  | Tag.remindDaily i _ => some i
  | Tag.remindOnce i _ => some i
  | _ => none

/-- Embedding of the `SessionState` dataclass (src/main.py:112-173).  The
fired-tag ledger is an insertion-ordered association list, mirroring a
Python dict. -/
structure SessionState where
  last_ts : Int := 0
  last_fired_tag : Option Tag := none
  last_fired_tags : List (Tag × Int) := []
  last_user_reply_ts : Int := 0
  consecutive_no_reply_count : Nat := 0
  next_idle_ts : Int := 0
deriving DecidableEq

/-- First-match lookup in the ledger (Python `tag in dict` /
`dict[tag]`). -/
def tagsLookup : List (Tag × Int) → Tag → Option Int
  | [], _ => none
  | (t, v) :: rest, tag => if t = tag then some v else tagsLookup rest tag

/-- Python dict assignment: replace the first occurrence in place, else
append. -/
def tagsInsert : List (Tag × Int) → Tag → Int → List (Tag × Int)
  | [], tag, v => [(tag, v)]
  | (t, w) :: rest, tag, v =>
    if t = tag then (tag, v) :: rest else (t, w) :: tagsInsert rest tag v

/-- Embedding of `SessionState.has_fired` (src/main.py:155-159): the tag
is in the ledger (the empty-dict early return is equivalent). -/
def SessionState.has_fired (s : SessionState) (tag : Tag) : Bool :=
  (tagsLookup s.last_fired_tags tag).isSome

/-- Embedding of `SessionState.mark_fired` (src/main.py:161-173): record
the tag at the current timestamp, update the back-compat field, then
prune every entry strictly older than 7 days. -/
def SessionState.mark_fired (s : SessionState) (tag : Tag) (nowTs : Int) :
    SessionState :=
  { s with
    last_fired_tags :=
      (tagsInsert s.last_fired_tags tag nowTs).filter
        (fun p => decide (nowTs - p.2 ≤ 7 * 86400)),
    last_fired_tag := some tag }

/-- Embedding of the `UserProfile` dataclass (src/main.py:84-110). -/
structure UserProfile where
  subscribed : Bool := false
  idle_after_minutes : Option Int := none
  daily_reminders_enabled : Bool := true
  daily_reminder_count : Nat := 3
  quiet_hours : Option (List Char) := none
deriving DecidableEq

/-- Embedding of the `Reminder` dataclass (src/main.py:176-202); `atS` is
the `at` field (`"YYYY-MM-DD HH:MM"` or `"HH:MM|daily"`). -/
structure Reminder where
  id : List Char
  umo : List Char
  content : List Char
  atS : List Char
  created_at : Int
deriving DecidableEq

/-- One daily slot of the `daily_prompts` config (either the nested
`slot<n>` dict or the flat `time<n>`/`prompt<n>`/`daily<n>_enable`
keys), with Python `dict.get` defaults. -/
structure SlotCfg where
  enable : Bool := false
  time : List Char := []
  prompt : List Char := []
deriving DecidableEq

/-- The configuration values the scheduler reads (with the defaults the
source substitutes on missing keys).  `slot<n> = none` models an absent
or empty nested `slot<n>` dict, in which case the flat keys are used. -/
structure Config where
  enable : Bool := true
  quiet_hours : List Char := []
  max_no_reply_days : Int := 0
  enable_idle_greetings : Bool := true
  idle_after_minutes : Int := 45
  idle_prompts : List (List Char) := []
  enable_daily_greetings : Bool := true
  slot1 : Option SlotCfg := none
  slot2 : Option SlotCfg := none
  slot3 : Option SlotCfg := none
  flat1 : SlotCfg := {}
  flat2 : SlotCfg := {}
  flat3 : SlotCfg := {}
  enable_reminders : Bool := true

/-- Dispatch events: one entry per call of `_proactive_reply` (idle or
daily) or `_proactive_reminder_reply`, with the outcome it returned. -/
inductive Ev where
  | idle (umo : List Char) (ok : Bool)
  | daily (umo : List Char) (slot : Nat) (ok : Bool)
  | remind (rid : List Char) (ok : Bool)
deriving DecidableEq

/-- Oracle supplying the outcome of each (side-effecting) dispatch and
the `random.randint` draw of the idle-delay computation. -/
structure Orc where
  idleOk : List Char → Bool := fun _ => true
  dailyOk : List Char → Bool := fun _ => true
  remOk : List Char → Bool := fun _ => true
  idleRand : List Char → Int := fun _ => 0

/-- First-match lookup in a string-keyed association list (a Python
dict). -/
def alLookup {β : Type} : List (List Char × β) → List Char → Option β
  | [], _ => none
  | (k, v) :: rest, key => if k = key then some v else alLookup rest key

/-- In-place value replacement for an existing key (mutation of the
object stored in a Python dict); a missing key leaves the list
unchanged. -/
def alUpdate {β : Type} : List (List Char × β) → List Char → β →
    List (List Char × β)
  | [], _, _ => []
  | (k, w) :: rest, key, v =>
    if k = key then (key, v) :: rest else (k, w) :: alUpdate rest key v

/-- Does this event record an idle dispatch for the given session? -/
def evIsIdleFor (umo : List Char) : Ev → Bool
  | Ev.idle u _ => decide (u = umo)
  | _ => false

/-- Does this event record a daily-slot dispatch for the given session? -/
def evIsDailyFor (umo : List Char) : Ev → Bool
  | Ev.daily u _ _ => decide (u = umo)
  | _ => false

/-- Does this event record a dispatch attempt of the given reminder? -/
def evIsRemind (rid : List Char) : Ev → Bool
  | Ev.remind k _ => decide (k = rid)
  | _ => false

/-- Does this event record a successful dispatch of the given reminder? -/
def evIsRemindOk (rid : List Char) : Ev → Bool
  | Ev.remind k ok => ok && decide (k = rid)
  | _ => false

/-- The session-state update `_proactive_reply` performs after a
successful send (src/main.py:1190-1197): refresh `last_ts` when the
profile is present and subscribed. -/
def dispatchUpd (st : SessionState) (profile : Option UserProfile)
    (nowTs : Int) : SessionState :=
  match profile with
  | some p => if p.subscribed then { st with last_ts := nowTs } else st
  | none => st

/-- The idle-delay computation shared by `_on_any_message` and the
back-compat path of `_check_idle_greeting`: a per-profile override is
used verbatim, otherwise base plus the random fluctuation draw, clamped
below at 30 minutes. -/
def idleDelay (cfg : Config) (p : UserProfile) (umo : List Char)
    (orc : Orc) : Int :=
  match p.idle_after_minutes with
  | some d => d
  | none => max 30 (cfg.idle_after_minutes + orc.idleRand umo)

/-- The firing part of `_check_idle_greeting` (src/main.py:967-987),
reached when `next_idle_ts` is positive: deadline test, minute-granular
dedup tag, template availability, dispatch, and the post-dispatch state
updates. -/
def idleFire (cfg : Config) (profile : Option UserProfile)
    (umo : List Char) (st : SessionState) (now : DT) (orc : Orc) :
    SessionState × List Ev :=
  if now.ts < st.next_idle_ts then (st, [])
  else
    if st.has_fired (Tag.idle now.dateStr (dtHour now) (dtMinute now)) then
      (st, [])
    else if cfg.idle_prompts = [] then (st, [])
    else if orc.idleOk umo then
      let st1 := (dispatchUpd st profile now.ts).mark_fired
        (Tag.idle now.dateStr (dtHour now) (dtMinute now)) now.ts
      ({ st1 with next_idle_ts := 0 }, [Ev.idle umo true])
    else
      ({ st with
          consecutive_no_reply_count := st.consecutive_no_reply_count + 1 },
        [Ev.idle umo false])

/-- Embedding of `_check_idle_greeting` (src/main.py:940-987) for a
present session state (the `not st` guard is handled at the tick
level): feature gate, the back-compat lazy initialization of
`next_idle_ts` (which defers firing to a later tick), then the firing
logic. -/
def check_idle_greeting (cfg : Config) (profile : Option UserProfile)
    (umo : List Char) (st : SessionState) (now : DT) (orc : Orc) :
    SessionState × List Ev :=
  if cfg.enable_idle_greetings = false then (st, [])
  else if st.next_idle_ts ≤ 0 then
    match profile with
    | some p =>
      if p.subscribed then
        let d := idleDelay cfg p umo orc
        let base := if st.last_ts > 0 then st.last_ts else now.ts
        ({ st with next_idle_ts := base + d * 60 }, [])
      else idleFire cfg profile umo st now orc
    | none => idleFire cfg profile umo st now orc
  else idleFire cfg profile umo st now orc

/-- One entry of the list `_parse_daily_slots` builds: slot number,
parsed time, dedup tag and prompt. -/
structure SlotInfo where
  num : Nat
  h : Nat
  m : Nat
  tag : Tag
  prompt : List Char
deriving DecidableEq

/-- The slot entry built at src/main.py:922 and 935: the tag embeds the
current date and the slot's configured (zero-padded) time. -/
def mkSlotInfo (n : Nat) (now : DT) (t : Nat × Nat) (prompt : List Char) :
    SlotInfo :=
  { num := n, h := t.1, m := t.2, tag := Tag.daily n now.dateStr t.1 t.2,
    prompt := prompt }

/-- Per-slot part of `_parse_daily_slots` (src/main.py:912-936): the
nested `slot<n>` dict takes priority; an enabled slot with a parseable
time contributes exactly one entry. -/
def parseSlot (n : Nat) (nested : Option SlotCfg) (flat : SlotCfg)
    (now : DT) : List SlotInfo :=
  match nested with
  | some c =>
    if c.enable then
      match parse_hhmm c.time with
      | some t => [mkSlotInfo n now t c.prompt]
      | none => []
    else []
  | none =>
    if flat.enable then
      match parse_hhmm flat.time with
      | some t => [mkSlotInfo n now t flat.prompt]
      | none => []
    else []

/-- The nested `slot<n>` config of a slot number. -/
def nestedSlot (cfg : Config) (n : Nat) : Option SlotCfg :=
  if n = 1 then cfg.slot1
  else if n = 2 then cfg.slot2
  else if n = 3 then cfg.slot3
  else none

/-- Embedding of `_parse_daily_slots` (src/main.py:899-938): slots 1..3
in order, each contributing its entry independently (no deduplication of
equal times). -/
def parse_daily_slots (cfg : Config) (now : DT) : List SlotInfo :=
  parseSlot 1 cfg.slot1 cfg.flat1 now ++ parseSlot 2 cfg.slot2 cfg.flat2 now
    ++ parseSlot 3 cfg.slot3 cfg.flat3 now

/-- The slot loop of `_check_daily_greetings` (src/main.py:999-1014):
skip non-matching slots, `continue` past an already-fired matching slot,
and `break` after the first matching unfired slot (dispatching only when
its prompt is nonempty). -/
def dailyLoop (umo : List Char) (p : UserProfile) (now : DT) (orc : Orc) :
    SessionState → List SlotInfo → SessionState × List Ev
  | s, [] => (s, [])
  | s, i :: rest =>
    if dtHour now = i.h ∧ dtMinute now = i.m then
      if s.has_fired i.tag then dailyLoop umo p now orc s rest
      else if i.prompt ≠ [] then
        if orc.dailyOk umo then
          ((dispatchUpd s (some p) now.ts).mark_fired i.tag now.ts,
            [Ev.daily umo i.num true])
        else
          ({ s with
              consecutive_no_reply_count := s.consecutive_no_reply_count + 1 },
            [Ev.daily umo i.num false])
      else (s, [])
    else dailyLoop umo p now orc s rest

/-- Embedding of `_check_daily_greetings` (src/main.py:989-1014) for a
present session state: global and per-profile gates, then the slot
loop. -/
def check_daily_greetings (cfg : Config) (umo : List Char)
    (st : SessionState) (p : UserProfile) (now : DT)
    (slots : List SlotInfo) (orc : Orc) : SessionState × List Ev :=
  if cfg.enable_daily_greetings = false ∨ p.daily_reminders_enabled = false
  then (st, [])
  else dailyLoop umo p now orc st slots

/-- A slot whose configured time matches the current minute and whose
per-day tag has not fired. -/
def slotMatches (s : SessionState) (now : DT) (i : SlotInfo) : Bool :=
  (decide (dtHour now = i.h) && decide (dtMinute now = i.m)) &&
    ! s.has_fired i.tag

/-- The first slot, in slot order, eligible to fire this tick. -/
def firstEligibleSlot (s : SessionState) (now : DT)
    (slots : List SlotInfo) : Option SlotInfo :=
  slots.find? (slotMatches s now)

/-- Embedding of `_should_auto_unsubscribe` (src/main.py:1016-1032),
decision part (the caller flips `subscribed`): requires a positive
`max_no_reply_days`, a positive `last_user_reply_ts`, and
`timedelta.days` (floor division of the elapsed seconds) at least the
maximum. -/
def should_auto_unsubscribe (cfg : Config) (st : SessionState) (now : DT) :
    Bool :=
  if cfg.max_no_reply_days ≤ 0 then false
  else if st.last_user_reply_ts > 0 then
    decide (cfg.max_no_reply_days ≤
      Int.fdiv (now.ts - st.last_user_reply_ts) 86400)
  else false

/-- The `"|daily"` marker tested by `_check_reminders`. -/
def dailyLit : List Char := ['|', 'd', 'a', 'i', 'l', 'y']

/-- Processing of a single reminder inside the `_check_reminders` loop
(src/main.py:1040-1089): skip when the session has no state; a daily
reminder fires on a clock match, deduped by its per-date tag, marked
only on success; a one-shot reminder fires when the current minute
string compares `>=` its `at` string, is marked and queued for deletion
regardless of the dispatch outcome.  Returns (states, fired ids,
events). -/
def remOne (now : DT) (orc : Orc) (rid : List Char) (r : Reminder)
    (sts : List (List Char × SessionState)) :
    List (List Char × SessionState) × List (List Char) × List Ev :=
  match alLookup sts r.umo with
  | none => (sts, [], [])
  | some st =>
    if hasSub dailyLit r.atS then
      match parse_hhmm (beforeBar r.atS) with
      | none => (sts, [], [])
      | some t =>
        if dtHour now = t.1 ∧ dtMinute now = t.2 then
          if st.has_fired (Tag.remindDaily r.id now.dateStr) then (sts, [], [])
          else if orc.remOk rid then
            (alUpdate sts r.umo
                (st.mark_fired (Tag.remindDaily r.id now.dateStr) now.ts),
              [], [Ev.remind rid true])
          else (sts, [], [Ev.remind rid false])
        else (sts, [], [])
    else
      if strGe (minuteStr now) r.atS then
        if st.has_fired (Tag.remindOnce r.id r.atS) then (sts, [], [])
        else
          (alUpdate sts r.umo
              (st.mark_fired (Tag.remindOnce r.id r.atS) now.ts),
            [rid], [Ev.remind rid (orc.remOk rid)])
      else (sts, [], [])

/-- The loop of `_check_reminders` over the reminder store snapshot,
threading the session states and accumulating fired ids and events. -/
def remRun (now : DT) (orc : Orc) :
    List (List Char × Reminder) → List (List Char × SessionState) →
    List (List Char × SessionState) × List (List Char) × List Ev
  | [], sts => (sts, [], [])
  | (rid, r) :: rest, sts =>
    let step := remOne now orc rid r sts
    let restOut := remRun now orc rest step.1
    (restOut.1, step.2.1 ++ restOut.2.1, step.2.2 ++ restOut.2.2)

/-- Embedding of `_check_reminders` (src/main.py:1034-1094): feature
gate, the loop, then deletion of every fired one-shot id from the
store. -/
def check_reminders (cfg : Config) (now : DT) (orc : Orc)
    (rems : List (List Char × Reminder))
    (sts : List (List Char × SessionState)) :
    List (List Char × Reminder) × List (List Char × SessionState) × List Ev :=
  if cfg.enable_reminders = false then (rems, sts, [])
  else
    let out := remRun now orc rems sts
    (rems.filter (fun p => decide (p.1 ∉ out.2.1)), out.1, out.2.2)

/-- Effective quiet window of a session (src/main.py:877): the profile
override when set and nonempty (Python truthiness), else the global
window. -/
def effQuiet (p : UserProfile) (cfg : Config) : List Char :=
  match p.quiet_hours with
  | some q => if q = [] then cfg.quiet_hours else q
  | none => cfg.quiet_hours

/-- The per-session body of the `_tick` loop (src/main.py:871-892):
subscription gate, quiet-hours gate, auto-unsubscribe (which skips the
rest of the session's checks), then the idle and daily checks. -/
def tickOne (cfg : Config) (orc : Orc) (now : DT) (slots : List SlotInfo)
    (umo : List Char) (p : UserProfile)
    (sts : List (List Char × SessionState)) :
    UserProfile × List (List Char × SessionState) × List Ev :=
  if p.subscribed = false then (p, sts, [])
  else if in_quiet now (effQuiet p cfg) then (p, sts, [])
  else
    match alLookup sts umo with
    | none => (p, sts, [])
    | some st =>
      if should_auto_unsubscribe cfg st now then
        ({ p with subscribed := false }, sts, [])
      else
        let r1 := check_idle_greeting cfg (some p) umo st now orc
        let r2 := check_daily_greetings cfg umo r1.1 p now slots orc
        (p, alUpdate sts umo r2.1, r1.2 ++ r2.2)

/-- The per-session phase of `_tick`: fold `tickOne` over the snapshot of
profiles, rebuilding the profile map and threading the states. -/
def tickSessions (cfg : Config) (orc : Orc) (now : DT)
    (slots : List SlotInfo) :
    List (List Char × UserProfile) → List (List Char × SessionState) →
    List (List Char × UserProfile) × List (List Char × SessionState) × List Ev
  | [], sts => ([], sts, [])
  | (umo, p) :: rest, sts =>
    let one := tickOne cfg orc now slots umo p sts
    let restOut := tickSessions cfg orc now slots rest one.2.1
    ((umo, one.1) :: restOut.1, restOut.2.1, one.2.2 ++ restOut.2.2)

/-- The mutable data `_tick` operates on. -/
structure TickData where
  profiles : List (List Char × UserProfile)
  states : List (List Char × SessionState)
  reminders : List (List Char × Reminder)
deriving DecidableEq

/-- The result of one tick. -/
structure TickOut where
  profiles : List (List Char × UserProfile)
  states : List (List Char × SessionState)
  reminders : List (List Char × Reminder)
  events : List Ev
deriving DecidableEq

/-- Embedding of `_tick` (src/main.py:847-897): global enable gate, the
daily-slot parse, the per-session phase, then the global reminder
pass. -/
def tick (cfg : Config) (orc : Orc) (d : TickData) (now : DT) : TickOut :=
  if cfg.enable = false then ⟨d.profiles, d.states, d.reminders, []⟩
  else
    let slots := parse_daily_slots cfg now
    let sess := tickSessions cfg orc now slots d.profiles d.states
    let rem := check_reminders cfg now orc d.reminders sess.2.1
    ⟨sess.1, rem.2.1, rem.1, sess.2.2 ++ rem.2.2⟩

/-- A sequence of reminder-check passes, as produced by successive ticks,
each with its own time and dispatch oracle. -/
def remPasses (cfg : Config) :
    List (DT × Orc) →
    List (List Char × Reminder) × List (List Char × SessionState) →
    List (List Char × Reminder) × List (List Char × SessionState) × List Ev
  | [], x => (x.1, x.2, [])
  | (dt, orc) :: rest, x =>
    let one := check_reminders cfg dt orc x.1 x.2
    let restOut := remPasses cfg rest (one.1, one.2.1)
    (restOut.1, restOut.2.1, one.2.2 ++ restOut.2.2)

/-! ### Debounced persistence

Model of `_debounced_save_session_data` (src/main.py:365-384) on a
single-threaded event loop: the plugin keeps one pending save task; an
*executed* call of the async debounce function cancels the previous
pending (not yet completed) task and schedules a new one that writes the
*current* data after the delay.  An event `(t, f)` is a mutation `f` of
the data at time `t` followed by a debounced save request.

The call sites differ: at src/main.py:640, 897, 964 and 1197 the async
function is awaited, so its body runs (`debStep`).  The message handler
`_on_any_message` (src/main.py:490-491) calls the async functions
*without* `await` (and not via `create_task`): the coroutine object is
discarded and its body never runs — no task is cancelled and none is
scheduled (`debStepNoAwait`). -/

/-- The debounce state: current in-memory data, the completion time of
the pending save task (if any), and the disk writes performed so far. -/
structure DebSt (α : Type) where
  data : α
  pending : Option Int
  writes : List α

/-- A pending task whose sleep elapsed before time `t` completes: it
writes the current data to disk. -/
def fireDue {α : Type} (t : Int) (s : DebSt α) : DebSt α :=
  match s.pending with
  | some tf =>
    if tf ≤ t then { s with pending := none, writes := s.writes ++ [s.data] }
    else s
  | none => s

/-- One mutation followed by an *awaited* debounce call (the body of
`_debounced_save_session_data` actually runs, as at src/main.py:640,
897, 964, 1197): first let a previously-elapsed task complete, then
mutate the data, then cancel any pending task and schedule a new one
for `ev.1 + delay`. -/
def debStep {α : Type} (delay : Int) (s : DebSt α) (ev : Int × (α → α)) :
    DebSt α :=
  let s1 := fireDue ev.1 s
  let s2 := { s1 with data := ev.2 s1.data }
  { s2 with pending := some (ev.1 + delay) }

/-- One `_on_any_message` event (src/main.py:432-491): a
previously-elapsed pending task still completes and the handler mutates
the data, but the debounce calls at src/main.py:490-491 lack `await`,
so the coroutine body never runs: nothing is cancelled and nothing is
scheduled. -/
def debStepNoAwait {α : Type} (s : DebSt α) (ev : Int × (α → α)) :
    DebSt α :=
  let s1 := fireDue ev.1 s
  { s1 with data := ev.2 s1.data }

/-- After the burst ends, the last scheduled task completes
undisturbed. -/
def debFlush {α : Type} (s : DebSt α) : DebSt α :=
  match s.pending with
  | some _ => { s with pending := none, writes := s.writes ++ [s.data] }
  | none => s

/-- Run a burst of mutation events through the debounced-save mechanism
with the debounce body executing on each request (awaited call sites),
and let the final pending write complete. -/
def runDebounce {α : Type} (delay : Int) (s : DebSt α)
    (evs : List (Int × (α → α))) : DebSt α :=
  debFlush (evs.foldl (debStep delay) s)

/-- Run a burst of `_on_any_message` events, whose save requests never
execute (src/main.py:490-491), and let any leftover pending write
complete. -/
def runDebounceMsg {α : Type} (s : DebSt α)
    (evs : List (Int × (α → α))) : DebSt α :=
  debFlush (evs.foldl debStepNoAwait s)

/-- Each event arrives strictly within the debounce delay of its
predecessor. -/
def withinWindow {α : Type} (delay : Int) : List (Int × (α → α)) → Bool
  | [] => true
  | [_] => true
  | a :: b :: rest =>
    decide (b.1 < a.1 + delay) && withinWindow delay (b :: rest)

/-! ### Concrete instances used by counterexamples and witnesses -/

/-- A session id. -/
def u0 : List Char := ['u', '1']

/-- A reminder id. -/
def rid0 : List Char := ['R', '1']

/-- An oracle whose dispatches all succeed. -/
def orcT : Orc := {}

/-- An oracle whose dispatches all fail. -/
def orcF : Orc :=
  { idleOk := fun _ => false, dailyOk := fun _ => false,
    remOk := fun _ => false, idleRand := fun _ => 0 }

/-- A daily slot at `09:00` with prompt `hi`. -/
def slot6a : SlotCfg :=
  { enable := true, time := ['0', '9', ':', '0', '0'], prompt := ['h', 'i'] }

/-- A second daily slot, also at `09:00`, with prompt `yo`. -/
def slot6b : SlotCfg :=
  { enable := true, time := ['0', '9', ':', '0', '0'], prompt := ['y', 'o'] }

/-- Config with two enabled daily slots that share the time `09:00`. -/
def cfg6 : Config :=
  { enable := true, enable_idle_greetings := false,
    slot1 := some slot6a, slot2 := some slot6b,
    enable_reminders := false }

/-- One subscribed session with a fresh state and no reminders. -/
def d6 : TickData :=
  { profiles := [(u0, { subscribed := true })],
    states := [(u0, {})],
    reminders := [] }

/-- A recurring reminder for session `u0` at `09:00`. -/
def rem5 : Reminder :=
  { id := rid0, umo := u0, content := [],
    atS := ['0', '9', ':', '0', '0', '|', 'd', 'a', 'i', 'l', 'y'],
    created_at := 0 }

/-- A time at 09:00:00. -/
def nowA : DT := ⟨['D'], 9 * 3600 * 1000000, 1000⟩

/-- A time at 09:00:30 of the same day (one tick later). -/
def nowB : DT := ⟨['D'], 9 * 3600 * 1000000 + 30000000, 1030⟩

/-- First tick of the duplicate-slot scenario. -/
def t6a : TickOut := tick cfg6 orcT d6 nowA

/-- Second tick of the duplicate-slot scenario, 30 seconds later. -/
def t6b : TickOut :=
  tick cfg6 orcT ⟨t6a.profiles, t6a.states, t6a.reminders⟩ nowB

/-- Config with auto-unsubscribe after 3 days and all triggers off. -/
def cfg4 : Config :=
  { enable := true, max_no_reply_days := 3, enable_idle_greetings := false,
    enable_daily_greetings := false, enable_reminders := false }

/-- One subscribed session whose state has `last_user_reply_ts = 0`. -/
def d4 : TickData :=
  { profiles := [(u0, { subscribed := true })],
    states := [(u0, {})],
    reminders := [] }

/-- Four whole days after the epoch of `last_user_reply_ts = 0`. -/
def now4 : DT := ⟨['D'], 0, 345600⟩

/-- Config whose global quiet window covers the whole day. -/
def cfg8 : Config :=
  { enable := true,
    quiet_hours := ['0', '0', ':', '0', '0', '-', '2', '3', ':', '5', '9'],
    enable_idle_greetings := false, enable_daily_greetings := false }

/-- A recurring reminder for session `u0` at `00:00`. -/
def rem8 : Reminder :=
  { id := rid0, umo := u0, content := [],
    atS := ['0', '0', ':', '0', '0', '|', 'd', 'a', 'i', 'l', 'y'],
    created_at := 0 }

/-- A subscribed session, inside quiet hours, with a due reminder. -/
def d8 : TickData :=
  { profiles := [(u0, { subscribed := true })],
    states := [(u0, {})],
    reminders := [(rid0, rem8)] }

/-- Midnight, inside the all-day quiet window. -/
def now8 : DT := ⟨['D'], 0, 500⟩

/-- A one-shot reminder scheduled at `2026-01-01 23:59`. -/
def rem2 : Reminder :=
  { id := rid0, umo := u0, content := [],
    atS := ['2', '0', '2', '6', '-', '0', '1', '-', '0', '1', ' ',
            '2', '3', ':', '5', '9'],
    created_at := 0 }

/-- Midnight on `2026-01-02`, one minute past `rem2`'s schedule. -/
def now2 : DT :=
  ⟨['2', '0', '2', '6', '-', '0', '1', '-', '0', '2'], 0, 0⟩

/-- A state whose ledger already holds the idle tag for 09:00 of day
`D`, with a positive elapsed idle deadline. -/
def stFired : SessionState :=
  { next_idle_ts := 1, last_fired_tags := [(Tag.idle ['D'] 9 0, 0)] }

/-- A two-event mutation burst on `Nat` data at times 0 and 1. -/
def evs9 : List (Int × (Nat → Nat)) :=
  [(0, fun n => n + 1), (1, fun n => n * 2)]

/-- The quiet-hours string `23:00-07:00`. -/
def quietW : List Char :=
  ['2', '3', ':', '0', '0', '-', '0', '7', ':', '0', '0']

/-- 23:30:00 as a `DT`. -/
def dtW : DT := ⟨['D'], (23 * 3600 + 1800) * 1000000, 0⟩

/-- The ledger holds the tag with a timestamp at least `a`; survives the
7-day prune as long as every later write happens within 7 days of
`a`. -/
def goodTag (l : List (Tag × Int)) (τ : Tag) (a : Int) : Prop :=
  ∃ v, tagsLookup l τ = some v ∧ a ≤ v

/-- The session-state map records the tag for session `u` with a
timestamp at least `a`. -/
def remTagGood (sts : List (List Char × SessionState)) (u : List Char)
    (τ : Tag) (a : Int) : Prop :=
  ∃ s v, alLookup sts u = some s ∧
    tagsLookup s.last_fired_tags τ = some v ∧ a ≤ v

/-! ## Theorems -/

/-- Unfolding of the reminder loop on a cons cell. -/
theorem remRun_cons (now : DT) (orc : Orc) (rid : List Char) (r : Reminder)
    (rest : List (List Char × Reminder))
    (sts : List (List Char × SessionState)) :
    remRun now orc ((rid, r) :: rest) sts =
      ((remRun now orc rest (remOne now orc rid r sts).1).1,
        (remOne now orc rid r sts).2.1 ++
          (remRun now orc rest (remOne now orc rid r sts).1).2.1,
        (remOne now orc rid r sts).2.2 ++
          (remRun now orc rest (remOne now orc rid r sts).1).2.2) := rfl

/-- Dict-assignment updates the stored value of the written key and no
other. -/
theorem tagsLookup_insert (l : List (Tag × Int)) (tag : Tag) (v : Int)
    (τ : Tag) :
    tagsLookup (tagsInsert l tag v) τ =
      if tag = τ then some v else tagsLookup l τ := by
  induction l with
  | nil => simp [tagsInsert, tagsLookup]
  | cons hd tl ih =>
    obtain ⟨t, w⟩ := hd
    by_cases ht : t = tag
    · subst ht
      simp only [tagsInsert, if_pos rfl]
      by_cases hτ : t = τ
      · subst hτ; simp [tagsLookup]
      · simp [tagsLookup, hτ]
    · simp only [tagsInsert, if_neg ht]
      by_cases hτ : t = τ
      · subst hτ
        have : ¬ tag = t := fun h => ht h.symm
        simp [tagsLookup, this]
      · simp [tagsLookup, hτ, ih]

/-- A key absent from the ledger stays absent after filtering. -/
theorem tagsLookup_filter_none (l : List (Tag × Int))
    (p : Tag × Int → Bool) (τ : Tag) (h : tagsLookup l τ = none) :
    tagsLookup (l.filter p) τ = none := by
  induction l with
  | nil => simp [tagsLookup]
  | cons hd tl ih =>
    obtain ⟨t, w⟩ := hd
    by_cases hτ : t = τ
    · subst hτ; simp [tagsLookup] at h
    · simp only [tagsLookup, if_neg hτ] at h
      by_cases hp : p (t, w) = true
      · simp [List.filter_cons, hp, tagsLookup, hτ, ih h]
      · simp only [List.filter_cons, Bool.not_eq_true] at hp ⊢
        rw [hp]
        exact ih h

/-- The first binding of a key survives filtering whenever the filter
keeps it. -/
theorem tagsLookup_filter_some (l : List (Tag × Int))
    (p : Tag × Int → Bool) (τ : Tag) (v : Int)
    (h : tagsLookup l τ = some v) (hp : p (τ, v) = true) :
    tagsLookup (l.filter p) τ = some v := by
  induction l with
  | nil => simp [tagsLookup] at h
  | cons hd tl ih =>
    obtain ⟨t, w⟩ := hd
    by_cases hτ : t = τ
    · subst hτ
      have hw : w = v := by simpa [tagsLookup] using h
      subst hw
      simp [List.filter_cons, hp, tagsLookup]
    · simp only [tagsLookup, if_neg hτ] at h
      by_cases hq : p (t, w) = true
      · simp [List.filter_cons, hq, tagsLookup, hτ, ih h]
      · simp only [List.filter_cons, Bool.not_eq_true] at hq ⊢
        rw [hq]
        exact ih h

/-- Marking a different tag never fires an unfired tag. -/
theorem has_fired_mark_ne (s : SessionState) (tag τ : Tag) (w : Int)
    (hne : tag ≠ τ) (hf : s.has_fired τ = false) :
    (s.mark_fired tag w).has_fired τ = false := by
  have h0 : tagsLookup s.last_fired_tags τ = none := by
    unfold SessionState.has_fired at hf
    cases hx : tagsLookup s.last_fired_tags τ with
    | none => rfl
    | some v => rw [hx] at hf; simp at hf
  have h1 : tagsLookup (tagsInsert s.last_fired_tags tag w) τ = none := by
    rw [tagsLookup_insert]
    simp [hne, h0]
  unfold SessionState.has_fired SessionState.mark_fired
  rw [tagsLookup_filter_none _ _ _ h1]
  rfl

/-- A good tag record survives a mark at a time within the 7-day prune
window above `a`. -/
theorem goodTag_mark (s : SessionState) (tag τ : Tag) (w a : Int)
    (h1 : a ≤ w) (h2 : w ≤ a + 7 * 86400)
    (hg : goodTag s.last_fired_tags τ a) :
    goodTag (s.mark_fired tag w).last_fired_tags τ a := by
  obtain ⟨v, hv, hav⟩ := hg
  unfold SessionState.mark_fired goodTag
  by_cases ht : tag = τ
  · subst ht
    refine ⟨w, ?_, h1⟩
    apply tagsLookup_filter_some
    · rw [tagsLookup_insert]; simp
    · simp
  · refine ⟨v, ?_, hav⟩
    apply tagsLookup_filter_some
    · rw [tagsLookup_insert]; simp [ht, hv]
    · simp only [decide_eq_true_eq]
      omega

/-- Marking a tag at time `w ≥ a` makes it good. -/
theorem goodTag_mark_self (s : SessionState) (tag : Tag) (w a : Int)
    (h1 : a ≤ w) :
    goodTag (s.mark_fired tag w).last_fired_tags tag a := by
  unfold SessionState.mark_fired goodTag
  refine ⟨w, ?_, h1⟩
  apply tagsLookup_filter_some
  · rw [tagsLookup_insert]; simp
  · simp

/-- A good tag is a fired tag. -/
theorem has_fired_of_goodTag (s : SessionState) (τ : Tag) (a : Int)
    (hg : goodTag s.last_fired_tags τ a) : s.has_fired τ = true := by
  obtain ⟨v, hv, _⟩ := hg
  unfold SessionState.has_fired
  simp [hv]

/-- Lookup at a key distinct from the updated one is unchanged. -/
theorem alLookup_update_ne {β : Type} (l : List (List Char × β))
    (key k : List Char) (v : β) (h : k ≠ key) :
    alLookup (alUpdate l key v) k = alLookup l k := by
  induction l with
  | nil => rfl
  | cons hd tl ih =>
    obtain ⟨k1, w⟩ := hd
    by_cases hk : k1 = key
    · subst hk
      simp only [alUpdate, if_pos rfl]
      have h1 : ¬ k1 = k := fun hh => h hh.symm
      simp [alLookup, h1]
    · simp only [alUpdate, if_neg hk]
      by_cases hk2 : k1 = k
      · subst hk2; simp [alLookup]
      · simp [alLookup, hk2, ih]

/-- Updating an existing key stores the new value. -/
theorem alLookup_update_self {β : Type} (l : List (List Char × β))
    (key : List Char) (v w : β) (h : alLookup l key = some w) :
    alLookup (alUpdate l key v) key = some v := by
  induction l with
  | nil => simp [alLookup] at h
  | cons hd tl ih =>
    obtain ⟨k1, w1⟩ := hd
    by_cases hk : k1 = key
    · subst hk; simp [alUpdate, alLookup]
    · simp only [alLookup, if_neg hk] at h
      simp [alUpdate, alLookup, hk, ih h]

/-- `alUpdate` never creates keys: an absent key stays absent. -/
theorem alLookup_update_none {β : Type} (l : List (List Char × β))
    (key k : List Char) (v : β) (h : alLookup l k = none) :
    alLookup (alUpdate l key v) k = none := by
  by_cases hk : k = key
  · subst hk
    induction l with
    | nil => simp [alUpdate, alLookup]
    | cons hd tl ih =>
      obtain ⟨k1, w1⟩ := hd
      by_cases h1 : k1 = k
      · subst h1; simp [alLookup] at h
      · simp only [alLookup, if_neg h1] at h
        have h2 : ¬ k1 = k := h1
        simp [alUpdate, alLookup, h1, h2, ih h]
  · rw [alLookup_update_ne l key k v hk]
    exact h

/-- Membership with distinct keys determines the lookup. -/
theorem alLookup_mem_nodup {β : Type} (l : List (List Char × β))
    (k : List Char) (v : β) (hmem : (k, v) ∈ l)
    (hnd : (l.map Prod.fst).Nodup) : alLookup l k = some v := by
  induction l with
  | nil => cases hmem
  | cons hd tl ih =>
    obtain ⟨k1, v1⟩ := hd
    simp only [List.map_cons, List.nodup_cons] at hnd
    rcases List.mem_cons.mp hmem with he | hm
    · cases he; simp [alLookup]
    · have hk : k1 ≠ k := by
        intro h
        subst h
        exact hnd.1 (List.mem_map_of_mem Prod.fst hm)
      simp [alLookup, hk, ih hm hnd.2]

/-- Any pair accepted by `parse_hhmm` is a valid clock time. -/
theorem parse_hhmm_bounds (s : List Char) (p : Nat × Nat)
    (h : parse_hhmm s = some p) : p.1 ≤ 23 ∧ p.2 ≤ 59 := by
  unfold parse_hhmm at h
  split at h
  · split_ifs at h with hc
    obtain ⟨h1, h2, h3, h4, h5⟩ := hc
    cases h
    simp only [isDigit, decide_eq_true_eq] at h2 h4 h5
    unfold dval at *
    constructor <;> omega
  · split_ifs at h with hc
    obtain ⟨h1, h2, h3, h4, h5⟩ := hc
    cases h
    simp only [isDigit, decide_eq_true_eq] at h2 h3 h4 h5
    unfold dval at *
    constructor <;> omega
  · exact absurd h (by simp)

/-- C3: for every current time and quiet-hours string, when both ends
parse, `in_quiet` tests the inclusive same-day window `[A, B]` when
`A ≤ B` and the midnight-wrapping disjunction `now ≥ A ∨ now ≤ B` when
`A > B` (both ends being valid clock times); every malformed string (no
dash, or an end the parser rejects) yields `false`. -/
theorem in_quiet_spec (now : DT) (q : List Char) :
    (∀ a b p1 p2, splitDash q = some (a, b) → parse_hhmm a = some p1 →
      parse_hhmm b = some p2 →
      (p1.1 ≤ 23 ∧ p1.2 ≤ 59 ∧ p2.1 ≤ 23 ∧ p2.2 ≤ 59) ∧
      (toMicro p1 ≤ toMicro p2 →
        (in_quiet now q = true ↔
          toMicro p1 ≤ now.tod ∧ now.tod ≤ toMicro p2)) ∧
      (toMicro p2 < toMicro p1 →
        (in_quiet now q = true ↔
          toMicro p1 ≤ now.tod ∨ now.tod ≤ toMicro p2))) ∧
    ((splitDash q = none ∨ ∃ a b, splitDash q = some (a, b) ∧
        (parse_hhmm a = none ∨ parse_hhmm b = none)) →
      in_quiet now q = false) := by
  constructor
  · intro a b p1 p2 hs ha hb
    have b1 := parse_hhmm_bounds a p1 ha
    have b2 := parse_hhmm_bounds b p2 hb
    refine ⟨⟨b1.1, b1.2, b2.1, b2.2⟩, ?_, ?_⟩
    · intro hle
      simp [in_quiet, hs, ha, hb, hle]
    · intro hgt
      simp [in_quiet, hs, ha, hb, not_le.mpr hgt, GE.ge]
  · intro h
    rcases h with h | ⟨a, b, hs, h⟩
    · simp [in_quiet, h]
    · rcases h with h | h
      · simp [in_quiet, hs, h]
      · cases hpa : parse_hhmm a <;> simp [in_quiet, hs, h, hpa]

/-- Witness for C3: 23:30 lies in the wrapping window `23:00-07:00`. -/
theorem in_quiet_spec_witness : in_quiet dtW quietW = true :=
  (((in_quiet_spec dtW quietW).1
      (['2', '3', ':', '0', '0']) (['0', '7', ':', '0', '0'])
      (23, 0) (7, 0) (by decide) (by decide) (by decide)).2.2
    (by decide)).mpr (Or.inl (by decide))

/-- C1: once the minute-granular idle tag of the current minute is in
the fired-tag ledger, evaluating the idle check again (at any time whose
minute rendering gives that tag) dispatches nothing: no event is
produced. -/
theorem idle_no_refire (cfg : Config) (profile : Option UserProfile)
    (umo : List Char) (st : SessionState) (now : DT) (orc : Orc)
    (h : st.has_fired (Tag.idle now.dateStr (dtHour now) (dtMinute now)) =
      true) :
    (check_idle_greeting cfg profile umo st now orc).2 = [] := by
  have hfire : (idleFire cfg profile umo st now orc).2 = [] := by
    unfold idleFire
    split
    · rfl
    · simp [h]
  unfold check_idle_greeting
  split
  · rfl
  · split
    · split
      · split
        · rfl
        · exact hfire
      · exact hfire
    · exact hfire

/-- Witness for C1: a concrete fired state produces no event. -/
theorem idle_no_refire_witness :
    (check_idle_greeting { idle_prompts := [['x']] }
      (some { subscribed := true }) u0 stFired nowA orcT).2 = [] :=
  idle_no_refire { idle_prompts := [['x']] } (some { subscribed := true })
    u0 stFired nowA orcT (by decide)

/-- Inside a burst, a pending save whose deadline lies beyond the next
event never completes: the fold just keeps replacing the pending task,
and no write happens. -/
theorem debounce_aux {α : Type} (delay : Int) (evs : List (Int × (α → α))) :
    ∀ (d : α) (w : List α) (tf : Int),
      withinWindow delay evs = true →
      (∀ e, evs.head? = some e → e.1 < tf) →
      evs = [] ∨
      ∃ tl, evs.foldl (debStep delay) ⟨d, some tf, w⟩ =
        ⟨evs.foldl (fun a e => e.2 a) d, some tl, w⟩ := by
  induction evs with
  | nil => intro d w tf _ _; left; rfl
  | cons e rest ih =>
    intro d w tf hw hfirst
    right
    have he : e.1 < tf := hfirst e rfl
    have hstep : debStep delay ⟨d, some tf, w⟩ e =
        ⟨e.2 d, some (e.1 + delay), w⟩ := by
      simp [debStep, fireDue, not_le.mpr he]
    cases rest with
    | nil =>
      exact ⟨e.1 + delay, by simp [hstep]⟩
    | cons f rest2 =>
      have hw' : withinWindow delay (f :: rest2) = true ∧ f.1 < e.1 + delay := by
        unfold withinWindow at hw
        simp only [Bool.and_eq_true, decide_eq_true_eq] at hw
        exact ⟨hw.2, hw.1⟩
      have := ih (e.2 d) w (e.1 + delay) hw'.1
        (fun g hg => by cases hg; exact hw'.2)
      rcases this with h | ⟨tl, htl⟩
      · exact absurd h (by simp)
      · exact ⟨tl, by simp only [List.foldl_cons, hstep]; exact htl⟩

/-- The cancel-and-reschedule mechanism itself behaves as the spec
intends when its body runs: a nonempty burst of mutations, each followed
by an executed (awaited) debounced save request and each arriving
strictly within the debounce delay of its predecessor, produces exactly
one disk write, holding the data after the last mutation. -/
theorem debounced_single_write {α : Type} (delay : Int) (d0 : α)
    (evs : List (Int × (α → α))) (hne : evs ≠ [])
    (hw : withinWindow delay evs = true) :
    (runDebounce delay ⟨d0, none, []⟩ evs).writes =
      [evs.foldl (fun a e => e.2 a) d0] := by
  cases evs with
  | nil => exact absurd rfl hne
  | cons e rest =>
    have h1 : debStep delay ⟨d0, none, []⟩ e =
        ⟨e.2 d0, some (e.1 + delay), []⟩ := by
      simp [debStep, fireDue]
    cases rest with
    | nil => simp [runDebounce, h1, debFlush]
    | cons f rest2 =>
      have hw' : withinWindow delay (f :: rest2) = true ∧ f.1 < e.1 + delay := by
        unfold withinWindow at hw
        simp only [Bool.and_eq_true, decide_eq_true_eq] at hw
        exact ⟨hw.2, hw.1⟩
      have := debounce_aux delay (f :: rest2) (e.2 d0) [] (e.1 + delay)
        hw'.1 (fun g hg => by cases hg; exact hw'.2)
      rcases this with h | ⟨tl, htl⟩
      · exact absurd h (by simp)
      · simp only [runDebounce, List.foldl_cons, h1, htl, debFlush,
          List.nil_append]

/-- Concrete instance of the executed-request mechanism: the burst
`evs9` (two mutations, 1 second apart, 2-second delay) yields the
single write `(0 + 1) * 2 = 2`. -/
theorem debounced_single_write_witness :
    (runDebounce 2 ⟨0, none, []⟩ evs9).writes = [2] :=
  (debounced_single_write 2 0 evs9
      (by unfold evs9; exact List.cons_ne_nil _ _) (by rfl)).trans rfl

/-- C9: the claim fails on its cited path and the code is the slip.  A
burst of `_on_any_message` events — each mutation followed by the
debounced-save calls of src/main.py:490-491, which lack `await` —
starting with no pending save task performs ZERO disk writes (not
exactly one), even though the in-memory data does hold every mutation
of the burst; the debounce body simply never runs there. -/
theorem message_burst_no_write {α : Type} (d0 : α)
    (evs : List (Int × (α → α))) :
    (runDebounceMsg ⟨d0, none, []⟩ evs).writes = [] ∧
    (runDebounceMsg ⟨d0, none, []⟩ evs).data =
      evs.foldl (fun a e => e.2 a) d0 := by
  have haux : ∀ (l : List (Int × (α → α))) (d : α),
      l.foldl debStepNoAwait ⟨d, none, []⟩ =
        ⟨l.foldl (fun a e => e.2 a) d, none, []⟩ := by
    intro l
    induction l with
    | nil => intro d; rfl
    | cons e rest ih =>
      intro d
      rw [List.foldl_cons, List.foldl_cons]
      have h1 : debStepNoAwait ⟨d, none, []⟩ e = ⟨e.2 d, none, []⟩ := by
        simp [debStepNoAwait, fireDue]
      rw [h1]
      exact ih (e.2 d)
  unfold runDebounceMsg
  rw [haux evs d0]
  exact ⟨rfl, rfl⟩

/-- The daily-slot loop dispatches nothing, or exactly one event, and in
the latter case the dispatched slot is the first slot in order whose
time matches the current minute and whose per-day tag is unfired. -/
theorem dailyLoop_events (umo : List Char) (p : UserProfile) (now : DT)
    (orc : Orc) (slots : List SlotInfo) (s : SessionState) :
    (dailyLoop umo p now orc s slots).2 = [] ∨
    ∃ i b, firstEligibleSlot s now slots = some i ∧
      (dailyLoop umo p now orc s slots).2 = [Ev.daily umo i.num b] := by
  induction slots with
  | nil => left; rfl
  | cons i rest ih =>
    by_cases hm : dtHour now = i.h ∧ dtMinute now = i.m
    · by_cases hf : s.has_fired i.tag
      · have hskip : firstEligibleSlot s now (i :: rest) =
            firstEligibleSlot s now rest := by
          simp [firstEligibleSlot, slotMatches, hm.1, hm.2, hf]
        rcases ih with h | ⟨j, b, hj, hev⟩
        · left; simpa [dailyLoop, hm, hf] using h
        · right; exact ⟨j, b, by rw [hskip]; exact hj,
            by simpa [dailyLoop, hm, hf] using hev⟩
      · have hfirst : firstEligibleSlot s now (i :: rest) = some i := by
          simp [firstEligibleSlot, slotMatches, hm.1, hm.2, hf]
        by_cases hp : i.prompt = []
        · left; simp [dailyLoop, hm, hf, hp]
        · right
          by_cases hok : orc.dailyOk umo
          · exact ⟨i, true, hfirst, by simp [dailyLoop, hm, hf, hp, hok]⟩
          · exact ⟨i, false, hfirst, by simp [dailyLoop, hm, hf, hp, hok]⟩
    · have hskip : firstEligibleSlot s now (i :: rest) =
          firstEligibleSlot s now rest := by
        rcases not_and_or.mp hm with hm' | hm' <;>
          simp [firstEligibleSlot, slotMatches, hm']
      rcases ih with h | ⟨j, b, hj, hev⟩
      · left; simpa [dailyLoop, hm] using h
      · right; exact ⟨j, b, by rw [hskip]; exact hj,
          by simpa [dailyLoop, hm] using hev⟩

/-- C7: in one tick, at most one daily slot dispatches for a session: if
a daily event for slot `n` is produced, it is the only event of the
daily check, and `n` is the first slot in slot order whose configured
time matches the current hour and minute and whose per-day tag has not
fired. -/
theorem daily_first_match_only (cfg : Config) (umo : List Char)
    (st : SessionState) (p : UserProfile) (now : DT)
    (slots : List SlotInfo) (orc : Orc) (n : Nat) (b : Bool)
    (hmem : Ev.daily umo n b ∈
      (check_daily_greetings cfg umo st p now slots orc).2) :
    (check_daily_greetings cfg umo st p now slots orc).2 =
      [Ev.daily umo n b] ∧
    ∃ i, firstEligibleSlot st now slots = some i ∧ i.num = n := by
  unfold check_daily_greetings at hmem ⊢
  split at hmem
  · simp at hmem
  · rcases dailyLoop_events umo p now orc slots st with h | ⟨i, b', hi, hev⟩
    · rw [h] at hmem; simp at hmem
    · rw [hev] at hmem
      simp only [List.mem_singleton] at hmem
      cases hmem
      rename_i hgate
      rw [if_neg hgate]
      exact ⟨hev, i, hi, rfl⟩

/-- Witness for C7: a concrete tick where slot 1 fires shows the event
list is exactly that one dispatch. -/
theorem daily_first_match_only_witness :
    (check_daily_greetings cfg6 u0 ({} : SessionState)
      { subscribed := true } nowA (parse_daily_slots cfg6 nowA) orcT).2 =
      [Ev.daily u0 1 true] :=
  (daily_first_match_only cfg6 u0 {} { subscribed := true } nowA
    (parse_daily_slots cfg6 nowA) orcT 1 true (by decide)).1

/-- Counterexample for C6: with slots 1 and 2 both configured at 09:00,
slot 1 fires on the 09:00:00 tick and slot 2 fires on the 09:00:30 tick
of the same calendar day, so two distinct enabled slots sharing a
clock-minute both fire for the same session on the same day — no
collapse of duplicate times happens before evaluation. -/
theorem daily_slots_not_collapsed_cex :
    cfg6.slot1 = some slot6a ∧ cfg6.slot2 = some slot6b ∧
    slot6a.time = slot6b.time ∧ slot6a.enable = true ∧
    slot6b.enable = true ∧ nowA.dateStr = nowB.dateStr ∧
    Ev.daily u0 1 true ∈ t6a.events ∧
    Ev.daily u0 2 true ∈ t6b.events := by
  refine ⟨rfl, rfl, rfl, rfl, rfl, rfl, ?_, ?_⟩ <;> decide

/-- C6 (amended): `_parse_daily_slots` performs no collapsing of
duplicate times: every enabled nested slot with a parseable time
contributes its own entry to the evaluated slot list, even when another
slot is configured with the same clock-minute. -/
theorem daily_slots_no_collapse (cfg : Config) (now : DT) (n : Nat)
    (c : SlotCfg) (t : Nat × Nat) (hn : nestedSlot cfg n = some c)
    (he : c.enable = true) (ht : parse_hhmm c.time = some t) :
    mkSlotInfo n now t c.prompt ∈ parse_daily_slots cfg now := by
  unfold nestedSlot at hn
  unfold parse_daily_slots
  by_cases h1 : n = 1
  · subst h1
    rw [if_pos rfl] at hn
    simp [parseSlot, hn, he, ht]
  · rw [if_neg h1] at hn
    by_cases h2 : n = 2
    · subst h2
      rw [if_pos rfl] at hn
      simp [parseSlot, hn, he, ht]
    · rw [if_neg h2] at hn
      by_cases h3 : n = 3
      · subst h3
        rw [if_pos rfl] at hn
        simp [parseSlot, hn, he, ht]
      · rw [if_neg h3] at hn
        cases hn

/-- Witness for C6 (amended): slot 2 of `cfg6` keeps its own entry even
though slot 1 shares its time. -/
theorem daily_slots_no_collapse_witness :
    mkSlotInfo 2 nowA (9, 0) ['y', 'o'] ∈ parse_daily_slots cfg6 nowA :=
  daily_slots_no_collapse cfg6 nowA 2
    { enable := true, time := ['0', '9', ':', '0', '0'],
      prompt := ['y', 'o'] }
    (9, 0) (by decide) (by decide) (by decide)

/-- Shape analysis of one reminder step: it leaves everything unchanged,
or dispatches without touching state, or dispatches and marks a reminder
tag of its own reminder id in its session's state. -/
theorem remOne_cases (now : DT) (orc : Orc) (rid : List Char)
    (r : Reminder) (sts : List (List Char × SessionState)) :
    remOne now orc rid r sts = (sts, [], []) ∨
    (∃ b, remOne now orc rid r sts = (sts, [], [Ev.remind rid b])) ∨
    (∃ st tag b fl, alLookup sts r.umo = some st ∧
      remTagOf tag = some r.id ∧
      (fl = ([] : List (List Char)) ∨ fl = [rid]) ∧
      remOne now orc rid r sts =
        (alUpdate sts r.umo (st.mark_fired tag now.ts), fl,
          [Ev.remind rid b])) := by
  unfold remOne
  split
  · left; rfl
  · rename_i st hst
    by_cases hd : hasSub dailyLit r.atS = true
    · rw [if_pos hd]
      split
      · left; rfl
      · rename_i t hp
        by_cases hm : dtHour now = t.1 ∧ dtMinute now = t.2
        · rw [if_pos hm]
          by_cases hf : st.has_fired (Tag.remindDaily r.id now.dateStr) = true
          · rw [if_pos hf]; left; rfl
          · rw [if_neg hf]
            by_cases hok : orc.remOk rid = true
            · rw [if_pos hok]
              right; right
              exact ⟨st, Tag.remindDaily r.id now.dateStr, true, [], hst,
                rfl, Or.inl rfl, rfl⟩
            · rw [if_neg hok]
              right; left
              exact ⟨false, rfl⟩
        · rw [if_neg hm]; left; rfl
    · rw [if_neg hd]
      by_cases hdue : strGe (minuteStr now) r.atS = true
      · rw [if_pos hdue]
        by_cases hf : st.has_fired (Tag.remindOnce r.id r.atS) = true
        · rw [if_pos hf]; left; rfl
        · rw [if_neg hf]
          right; right
          exact ⟨st, Tag.remindOnce r.id r.atS, orc.remOk rid, [rid], hst,
            rfl, Or.inr rfl, rfl⟩
      · rw [if_neg hdue]; left; rfl

/-- The events of one reminder step are empty or a single event keyed by
that reminder. -/
theorem remOne_events (now : DT) (orc : Orc) (rid : List Char)
    (r : Reminder) (sts : List (List Char × SessionState)) :
    (remOne now orc rid r sts).2.2 = [] ∨
    ∃ b, (remOne now orc rid r sts).2.2 = [Ev.remind rid b] := by
  rcases remOne_cases now orc rid r sts with h | ⟨b, h⟩ |
    ⟨st, tag, b, fl, _, _, _, h⟩
  · left; rw [h]
  · right; exact ⟨b, by rw [h]⟩
  · right; exact ⟨b, by rw [h]⟩

/-- The fired-id list of one reminder step is empty or that reminder's
key. -/
theorem remOne_fired (now : DT) (orc : Orc) (rid : List Char)
    (r : Reminder) (sts : List (List Char × SessionState)) :
    (remOne now orc rid r sts).2.1 = [] ∨
    (remOne now orc rid r sts).2.1 = [rid] := by
  rcases remOne_cases now orc rid r sts with h | ⟨b, h⟩ |
    ⟨st, tag, b, fl, _, _, hfl, h⟩
  · left; rw [h]
  · left; rw [h]
  · rcases hfl with hfl | hfl
    · left; rw [h, hfl]
    · right; rw [h, hfl]

/-- One reminder step never creates a session-state entry. -/
theorem remOne_lookup_none (now : DT) (orc : Orc) (rid : List Char)
    (r : Reminder) (sts : List (List Char × SessionState))
    (u : List Char) (h : alLookup sts u = none) :
    alLookup (remOne now orc rid r sts).1 u = none := by
  rcases remOne_cases now orc rid r sts with h1 | ⟨b, h1⟩ |
    ⟨st, tag, b, fl, _, _, _, h1⟩
  · rw [h1]; exact h
  · rw [h1]; exact h
  · rw [h1]; exact alLookup_update_none _ _ _ _ h

/-- One reminder step of a reminder with a different id never fires a
tag carrying this id. -/
theorem remOne_unfired (now : DT) (orc : Orc) (rid : List Char)
    (r : Reminder) (sts : List (List Char × SessionState)) (τ : Tag)
    (u : List Char) (s : SessionState)
    (hτ : remTagOf τ ≠ some r.id) (h : alLookup sts u = some s)
    (hf : s.has_fired τ = false) :
    ∃ s', alLookup (remOne now orc rid r sts).1 u = some s' ∧
      s'.has_fired τ = false := by
  rcases remOne_cases now orc rid r sts with h1 | ⟨b, h1⟩ |
    ⟨st, tag, b, fl, hst, htag, _, h1⟩
  · exact ⟨s, by rw [h1]; exact h, hf⟩
  · exact ⟨s, by rw [h1]; exact h, hf⟩
  · rw [h1]
    by_cases hu : u = r.umo
    · subst hu
      have hss : s = st := by
        have := h.symm.trans hst
        injection this
      subst hss
      refine ⟨s.mark_fired tag now.ts, alLookup_update_self _ _ _ _ h, ?_⟩
      apply has_fired_mark_ne
      · intro he
        rw [he] at htag
        exact hτ htag
      · exact hf
    · rw [alLookup_update_ne _ _ _ _ hu]
      exact ⟨s, h, hf⟩

/-- A good tag record in any session survives one reminder step whose
time lies within the prune window. -/
theorem remOne_goodTag (now : DT) (orc : Orc) (rid : List Char)
    (r : Reminder) (sts : List (List Char × SessionState)) (τ : Tag)
    (u : List Char) (a : Int) (h1 : a ≤ now.ts)
    (h2 : now.ts ≤ a + 7 * 86400) (hg : remTagGood sts u τ a) :
    remTagGood (remOne now orc rid r sts).1 u τ a := by
  obtain ⟨s, v, hs, hv, hav⟩ := hg
  rcases remOne_cases now orc rid r sts with heq | ⟨b, heq⟩ |
    ⟨st, tag, b, fl, hst, htag, _, heq⟩
  · rw [heq]; exact ⟨s, v, hs, hv, hav⟩
  · rw [heq]; exact ⟨s, v, hs, hv, hav⟩
  · rw [heq]
    by_cases hu : u = r.umo
    · subst hu
      have hss : s = st := by
        have := hs.symm.trans hst
        injection this
      subst hss
      obtain ⟨v', hv', hav'⟩ :=
        goodTag_mark s tag τ now.ts a h1 h2 ⟨v, hv, hav⟩
      exact ⟨s.mark_fired tag now.ts, v',
        alLookup_update_self _ _ _ _ hs, hv', hav'⟩
    · exact ⟨s, v, (alLookup_update_ne _ _ _ _ hu).trans hs, hv, hav⟩

/-- A reminder whose session has no state is skipped unchanged
(src/main.py:1042-1045). -/
theorem remOne_none (now : DT) (orc : Orc) (rid : List Char)
    (r : Reminder) (sts : List (List Char × SessionState))
    (h : alLookup sts r.umo = none) :
    remOne now orc rid r sts = (sts, [], []) := by
  unfold remOne
  rw [h]

/-- A due, unfired one-shot reminder with session state dispatches once,
marks its tag, and queues itself for deletion — whatever the dispatch
outcome (src/main.py:1063-1083). -/
theorem remOne_oneshot_fire (now : DT) (orc : Orc) (rid : List Char)
    (r : Reminder) (sts : List (List Char × SessionState))
    (st : SessionState) (hst : alLookup sts r.umo = some st)
    (hdaily : hasSub dailyLit r.atS = false)
    (hdue : strGe (minuteStr now) r.atS = true)
    (hfired : st.has_fired (Tag.remindOnce r.id r.atS) = false) :
    remOne now orc rid r sts =
      (alUpdate sts r.umo
          (st.mark_fired (Tag.remindOnce r.id r.atS) now.ts),
        [rid], [Ev.remind rid (orc.remOk rid)]) := by
  unfold remOne
  rw [hst]
  dsimp only
  rw [if_neg (by simp [hdaily]), if_pos hdue, if_neg (by simp [hfired])]

/-- The reminder loop never creates a session-state entry. -/
theorem remRun_lookup_none (now : DT) (orc : Orc)
    (L : List (List Char × Reminder)) (u : List Char) :
    ∀ sts, alLookup sts u = none →
      alLookup (remRun now orc L sts).1 u = none := by
  induction L with
  | nil => intro sts h; exact h
  | cons hd rest ih =>
    obtain ⟨k, q⟩ := hd
    intro sts h
    rw [remRun_cons]
    exact ih _ (remOne_lookup_none now orc k q sts u h)

/-- Every event of the reminder loop is a reminder event keyed by one of
the processed reminder keys. -/
theorem remRun_events_keyed (now : DT) (orc : Orc)
    (L : List (List Char × Reminder)) :
    ∀ sts e, e ∈ (remRun now orc L sts).2.2 →
      ∃ k b, e = Ev.remind k b ∧ k ∈ L.map Prod.fst := by
  induction L with
  | nil => intro sts e he; cases he
  | cons hd rest ih =>
    obtain ⟨k, q⟩ := hd
    intro sts e he
    rw [remRun_cons] at he
    rcases List.mem_append.mp he with he | he
    · rcases remOne_events now orc k q sts with h0 | ⟨b, h0⟩
      · rw [h0] at he; cases he
      · rw [h0] at he
        rcases List.mem_singleton.mp he with rfl
        exact ⟨k, b, rfl,
          by rw [List.map_cons]; exact List.mem_cons_self _ _⟩
    · obtain ⟨k', b, rfl, hk⟩ := ih _ e he
      exact ⟨k', b, rfl,
        by rw [List.map_cons]; exact List.mem_cons_of_mem _ hk⟩

/-- Every fired id of the reminder loop is one of the processed keys. -/
theorem remRun_fired_keyed (now : DT) (orc : Orc)
    (L : List (List Char × Reminder)) :
    ∀ sts k, k ∈ (remRun now orc L sts).2.1 → k ∈ L.map Prod.fst := by
  induction L with
  | nil => intro sts k hk; cases hk
  | cons hd rest ih =>
    obtain ⟨k1, q⟩ := hd
    intro sts k hk
    rw [remRun_cons] at hk
    rcases List.mem_append.mp hk with hk | hk
    · rcases remOne_fired now orc k1 q sts with h0 | h0
      · rw [h0] at hk; cases hk
      · rw [h0] at hk
        rcases List.mem_singleton.mp hk with rfl
        rw [List.map_cons]
        exact List.mem_cons_self _ _
    · rw [List.map_cons]
      exact List.mem_cons_of_mem _ (ih _ k hk)

/-- A reminder key outside the processed list gets no dispatch
attempt. -/
theorem remRun_count_zero (now : DT) (orc : Orc)
    (L : List (List Char × Reminder))
    (sts : List (List Char × SessionState)) (rid : List Char)
    (h : rid ∉ L.map Prod.fst) :
    (remRun now orc L sts).2.2.countP (evIsRemind rid) = 0 := by
  rw [List.countP_eq_zero]
  intro e he
  obtain ⟨k, b, rfl, hk⟩ := remRun_events_keyed now orc L sts e he
  simp only [evIsRemind, decide_eq_true_eq]
  intro h'
  exact h (h' ▸ hk)

/-- The reminder loop over reminders of other ids preserves an unfired
tag of this id (in any session). -/
theorem remRun_unfired (now : DT) (orc : Orc)
    (L : List (List Char × Reminder)) (τ : Tag) (u : List Char)
    (hτ : ∀ q ∈ L, remTagOf τ ≠ some (Prod.snd q).id) :
    ∀ sts s, alLookup sts u = some s → s.has_fired τ = false →
      ∃ s', alLookup (remRun now orc L sts).1 u = some s' ∧
        s'.has_fired τ = false := by
  induction L with
  | nil => intro sts s h hf; exact ⟨s, h, hf⟩
  | cons hd rest ih =>
    obtain ⟨k, q⟩ := hd
    intro sts s h hf
    rw [remRun_cons]
    obtain ⟨s', hs', hf'⟩ :=
      remOne_unfired now orc k q sts τ u s (hτ (k, q) (by simp)) h hf
    exact ih (fun x hx => hτ x (List.mem_cons_of_mem _ hx)) _ s' hs' hf'

/-- A good tag record survives the whole reminder loop when the loop
runs within the prune window. -/
theorem remRun_goodTag (now : DT) (orc : Orc)
    (L : List (List Char × Reminder)) (τ : Tag) (u : List Char) (a : Int)
    (h1 : a ≤ now.ts) (h2 : now.ts ≤ a + 7 * 86400) :
    ∀ sts, remTagGood sts u τ a →
      remTagGood (remRun now orc L sts).1 u τ a := by
  induction L with
  | nil => intro sts hg; exact hg
  | cons hd rest ih =>
    obtain ⟨k, q⟩ := hd
    intro sts hg
    rw [remRun_cons]
    exact ih _ (remOne_goodTag now orc k q sts τ u a h1 h2 hg)

/-- Keys listed among the fired ids disappear from the filtered store. -/
theorem alLookup_filter_out {β : Type} (L : List (List Char × β))
    (F : List (List Char)) (k : List Char) (h : k ∈ F) :
    alLookup (L.filter (fun p => decide (p.1 ∉ F))) k = none := by
  induction L with
  | nil => rfl
  | cons hd tl ih =>
    obtain ⟨k1, v⟩ := hd
    rw [List.filter_cons]
    by_cases hp : k1 ∉ F
    · have hk : k1 ≠ k := fun he => hp (he ▸ h)
      rw [if_pos (by simpa using hp)]
      simp only [alLookup]
      rw [if_neg hk]
      exact ih
    · rw [if_neg (by simpa using hp)]
      exact ih

/-- Keys outside the fired ids keep their binding in the filtered
store. -/
theorem alLookup_filter_keep {β : Type} (L : List (List Char × β))
    (F : List (List Char)) (k : List Char) (v : β)
    (hmem : (k, v) ∈ L) (hnd : (L.map Prod.fst).Nodup) (h : k ∉ F) :
    alLookup (L.filter (fun p => decide (p.1 ∉ F))) k = some v := by
  induction L with
  | nil => cases hmem
  | cons hd tl ih =>
    obtain ⟨k1, v1⟩ := hd
    simp only [List.map_cons, List.nodup_cons] at hnd
    rcases List.mem_cons.mp hmem with he | hm
    · cases he
      simp only [List.filter_cons]
      rw [if_pos (by simpa using h)]
      simp [alLookup]
    · have hk : k1 ≠ k := by
        intro hkk
        subst hkk
        exact hnd.1 (List.mem_map_of_mem Prod.fst hm)
      by_cases hp : k1 ∉ F
      · simp only [List.filter_cons]
        rw [if_pos (by simpa using hp)]
        simp only [alLookup, if_neg hk]
        exact ih hm hnd.2
      · simp only [List.filter_cons]
        rw [if_neg (by simpa using hp)]
        exact ih hm hnd.2

/-- Core of C2 over the reminder loop: the due unfired one-shot gets
exactly one dispatch attempt and lands in the fired-id list. -/
theorem remRun_oneshot_core (now : DT) (orc : Orc) (rid : List Char)
    (r : Reminder) (hdaily : hasSub dailyLit r.atS = false)
    (hdue : strGe (minuteStr now) r.atS = true) :
    ∀ (L : List (List Char × Reminder))
      (sts : List (List Char × SessionState)) (st : SessionState),
      (rid, r) ∈ L → (L.map Prod.fst).Nodup →
      (∀ q ∈ L, (Prod.snd q).id = Prod.fst q) →
      alLookup sts r.umo = some st →
      st.has_fired (Tag.remindOnce r.id r.atS) = false →
      (remRun now orc L sts).2.2.countP (evIsRemind rid) = 1 ∧
      rid ∈ (remRun now orc L sts).2.1 := by
  intro L
  induction L with
  | nil => intro sts st hmem; cases hmem
  | cons hd rest ih =>
    obtain ⟨k, q⟩ := hd
    intro sts st hmem hnd hids hst hf
    simp only [List.map_cons, List.nodup_cons] at hnd
    rcases List.mem_cons.mp hmem with he | hm
    · cases he
      rw [remRun_cons,
        remOne_oneshot_fire now orc rid r sts st hst hdaily hdue hf]
      constructor
      · rw [List.countP_append]
        rw [remRun_count_zero now orc rest _ rid hnd.1]
        simp [evIsRemind]
      · exact List.mem_append.mpr (Or.inl (by simp))
    · have hkne : k ≠ rid := by
        intro hkk
        subst hkk
        exact hnd.1 (List.mem_map_of_mem Prod.fst hm)
      have hrid : r.id = rid := hids (rid, r) (List.mem_cons_of_mem _ hm)
      have hτ : remTagOf (Tag.remindOnce r.id r.atS) ≠ some q.id := by
        have hqid : q.id = k := hids (k, q) (List.mem_cons_self _ _)
        simp only [remTagOf, hrid, hqid]
        intro hh
        injection hh with hh2
        exact hkne hh2.symm
      obtain ⟨s', hs', hf'⟩ :=
        remOne_unfired now orc k q sts _ r.umo st hτ hst hf
      rw [remRun_cons, List.countP_append]
      have hc0 : (remOne now orc k q sts).2.2.countP (evIsRemind rid) = 0 := by
        rcases remOne_events now orc k q sts with h0 | ⟨b, h0⟩ <;>
          simp [h0, evIsRemind, hkne]
      have hrest := ih _ s' hm hnd.2
        (fun x hx => hids x (List.mem_cons_of_mem _ hx)) hs' hf'
      refine ⟨?_, List.mem_append.mpr (Or.inr hrest.2)⟩
      rw [hc0, hrest.1]

/-- C2 (amended): a due one-shot reminder whose dedup tag has not fired
and whose session has a session-state entry (reminders enabled, ids
matching their keys) gets exactly one dispatch attempt in the
reminder-check pass and is then removed from the store, whatever the
dispatch outcome. -/
theorem oneshot_single_attempt (cfg : Config) (now : DT) (orc : Orc)
    (rems : List (List Char × Reminder))
    (sts : List (List Char × SessionState)) (rid : List Char)
    (r : Reminder) (st : SessionState)
    (hen : cfg.enable_reminders = true)
    (hmem : (rid, r) ∈ rems)
    (hnd : (rems.map Prod.fst).Nodup)
    (hids : ∀ q ∈ rems, (Prod.snd q).id = Prod.fst q)
    (hst : alLookup sts r.umo = some st)
    (hdaily : hasSub dailyLit r.atS = false)
    (hdue : strGe (minuteStr now) r.atS = true)
    (hfired : st.has_fired (Tag.remindOnce r.id r.atS) = false) :
    (check_reminders cfg now orc rems sts).2.2.countP (evIsRemind rid) = 1 ∧
    alLookup (check_reminders cfg now orc rems sts).1 rid = none := by
  have hcore := remRun_oneshot_core now orc rid r hdaily hdue rems sts st
    hmem hnd hids hst hfired
  unfold check_reminders
  rw [if_neg (by simp [hen])]
  exact ⟨hcore.1, alLookup_filter_out _ _ _ hcore.2⟩

/-- Witness for C2 (amended): a concrete due one-shot whose dispatch
fails is still attempted once and removed. -/
theorem oneshot_single_attempt_witness :
    (check_reminders {} now2 orcF [(rid0, rem2)]
        [(u0, {})]).2.2.countP (evIsRemind rid0) = 1 ∧
    alLookup (check_reminders {} now2 orcF [(rid0, rem2)]
        [(u0, {})]).1 rid0 = none :=
  oneshot_single_attempt {} now2 orcF [(rid0, rem2)] [(u0, {})] rid0 rem2
    {} (by decide) (by decide) (by decide) (by decide) (by decide)
    (by decide) (by decide) (by decide)

/-- Counterexample for C2: a one-shot reminder that is due (the current
minute string compares `>=` its schedule) and whose dedup tag has never
fired, but whose session id has no session-state entry, gets zero
dispatch attempts and stays in the store after the pass. -/
theorem oneshot_no_state_cex :
    alLookup ([] : List (List Char × SessionState)) rem2.umo = none ∧
    hasSub dailyLit rem2.atS = false ∧
    strGe (minuteStr now2) rem2.atS = true ∧
    (check_reminders {} now2 orcT [(rid0, rem2)] []).2.2 = [] ∧
    (check_reminders {} now2 orcT [(rid0, rem2)] []).1 =
      [(rid0, rem2)] := by
  refine ⟨rfl, ?_, ?_, ?_, ?_⟩ <;> decide

/-- Core of C10 over the reminder loop: a reminder with no session
state is never dispatched, never queued for deletion, and no state
entry appears for its session. -/
theorem remRun_skip_core (now : DT) (orc : Orc) (rid : List Char)
    (r : Reminder) :
    ∀ (L : List (List Char × Reminder))
      (sts : List (List Char × SessionState)),
      (rid, r) ∈ L → (L.map Prod.fst).Nodup →
      alLookup sts r.umo = none →
      rid ∉ (remRun now orc L sts).2.1 ∧
      (remRun now orc L sts).2.2.countP (evIsRemind rid) = 0 ∧
      alLookup (remRun now orc L sts).1 r.umo = none := by
  intro L
  induction L with
  | nil => intro sts hmem; cases hmem
  | cons hd rest ih =>
    obtain ⟨k, q⟩ := hd
    intro sts hmem hnd hst
    simp only [List.map_cons, List.nodup_cons] at hnd
    rcases List.mem_cons.mp hmem with he | hm
    · cases he
      rw [remRun_cons, remOne_none now orc rid r sts hst]
      refine ⟨?_, ?_, remRun_lookup_none now orc rest r.umo sts hst⟩
      · simp only [List.nil_append]
        intro hk
        exact hnd.1 (remRun_fired_keyed now orc rest sts rid hk)
      · simp only [List.nil_append]
        exact remRun_count_zero now orc rest sts rid hnd.1
    · have hkne : k ≠ rid := by
        intro hkk
        subst hkk
        exact hnd.1 (List.mem_map_of_mem Prod.fst hm)
      have hst' := remOne_lookup_none now orc k q sts r.umo hst
      obtain ⟨ha, hb, hc⟩ := ih _ hm hnd.2 hst'
      rw [remRun_cons]
      refine ⟨?_, ?_, hc⟩
      · intro hk
        rcases List.mem_append.mp hk with hk | hk
        · rcases remOne_fired now orc k q sts with h0 | h0
          · rw [h0] at hk; cases hk
          · rw [h0] at hk
            exact hkne (List.mem_singleton.mp hk).symm
        · exact ha hk
      · rw [List.countP_append, hb]
        have hc0 : (remOne now orc k q sts).2.2.countP
            (evIsRemind rid) = 0 := by
          rcases remOne_events now orc k q sts with h0 | ⟨b, h0⟩ <;>
            simp [h0, evIsRemind, hkne]
        rw [hc0]

/-- C10: a reminder whose session id has no session-state entry is
skipped entirely by the reminder-check pass: no dispatch attempt, the
reminder stays in the store with its value unchanged, and no
session-state entry is created for its session. -/
theorem reminder_no_state_skipped (cfg : Config) (now : DT) (orc : Orc)
    (rems : List (List Char × Reminder))
    (sts : List (List Char × SessionState)) (rid : List Char)
    (r : Reminder)
    (hmem : (rid, r) ∈ rems)
    (hnd : (rems.map Prod.fst).Nodup)
    (hst : alLookup sts r.umo = none) :
    alLookup (check_reminders cfg now orc rems sts).1 rid = some r ∧
    (check_reminders cfg now orc rems sts).2.2.countP (evIsRemind rid) = 0 ∧
    alLookup (check_reminders cfg now orc rems sts).2.1 r.umo = none := by
  unfold check_reminders
  by_cases hen : cfg.enable_reminders = false
  · rw [if_pos hen]
    exact ⟨alLookup_mem_nodup rems rid r hmem hnd, rfl, hst⟩
  · rw [if_neg hen]
    obtain ⟨ha, hb, hc⟩ := remRun_skip_core now orc rid r rems sts hmem hnd hst
    exact ⟨alLookup_filter_keep rems _ rid r hmem hnd ha, hb, hc⟩

/-- Unfolding of a reminder-pass sequence on a cons cell. -/
theorem remPasses_cons (cfg : Config) (dt : DT) (orc : Orc)
    (rest : List (DT × Orc)) (x : List (List Char × Reminder) ×
      List (List Char × SessionState)) :
    remPasses cfg ((dt, orc) :: rest) x =
      ((remPasses cfg rest ((check_reminders cfg dt orc x.1 x.2).1,
          (check_reminders cfg dt orc x.1 x.2).2.1)).1,
        (remPasses cfg rest ((check_reminders cfg dt orc x.1 x.2).1,
          (check_reminders cfg dt orc x.1 x.2).2.1)).2.1,
        (check_reminders cfg dt orc x.1 x.2).2.2 ++
          (remPasses cfg rest ((check_reminders cfg dt orc x.1 x.2).1,
            (check_reminders cfg dt orc x.1 x.2).2.1)).2.2) := rfl

/-- Filtering a store preserves distinctness of its keys. -/
theorem nodup_keys_filter {β : Type} (L : List (List Char × β))
    (p : List Char × β → Bool) (hnd : (L.map Prod.fst).Nodup) :
    ((L.filter p).map Prod.fst).Nodup :=
  List.Nodup.sublist (List.Sublist.map Prod.fst (List.filter_sublist L)) hnd

/-- A reminder key outside the processed list gets no successful
dispatch. -/
theorem remRun_count_ok_zero (now : DT) (orc : Orc)
    (L : List (List Char × Reminder))
    (sts : List (List Char × SessionState)) (rid : List Char)
    (h : rid ∉ L.map Prod.fst) :
    (remRun now orc L sts).2.2.countP (evIsRemindOk rid) = 0 := by
  rw [List.countP_eq_zero]
  intro e he
  obtain ⟨k, b, rfl, hk⟩ := remRun_events_keyed now orc L sts e he
  simp only [evIsRemindOk, Bool.and_eq_true, decide_eq_true_eq]
  intro h'
  exact h (h'.2 ▸ hk)

/-- Case analysis of one step of a recurring (`|daily`) reminder: skip,
failed dispatch, or successful dispatch that marks the per-date tag. -/
theorem remOne_daily_cases (now : DT) (orc : Orc) (rid : List Char)
    (r : Reminder) (sts : List (List Char × SessionState))
    (hdaily : hasSub dailyLit r.atS = true) :
    remOne now orc rid r sts = (sts, [], []) ∨
    remOne now orc rid r sts = (sts, [], [Ev.remind rid false]) ∨
    (∃ st, alLookup sts r.umo = some st ∧
      st.has_fired (Tag.remindDaily r.id now.dateStr) = false ∧
      remOne now orc rid r sts =
        (alUpdate sts r.umo
            (st.mark_fired (Tag.remindDaily r.id now.dateStr) now.ts),
          [], [Ev.remind rid true])) := by
  unfold remOne
  split
  · left; rfl
  · rename_i st hst
    rw [if_pos hdaily]
    split
    · left; rfl
    · rename_i t hp
      by_cases hm : dtHour now = t.1 ∧ dtMinute now = t.2
      · rw [if_pos hm]
        by_cases hf : st.has_fired (Tag.remindDaily r.id now.dateStr) = true
        · rw [if_pos hf]; left; rfl
        · rw [if_neg hf]
          by_cases hok : orc.remOk rid = true
          · rw [if_pos hok]
            right; right
            exact ⟨st, hst, by simpa using hf, rfl⟩
          · rw [if_neg hok]; right; left; rfl
      · rw [if_neg hm]; left; rfl

/-- Per-pass triple for a recurring reminder `r` stored (at most) under
key `rid`: if its per-date tag is already well recorded, the pass makes
no successful dispatch of it and keeps the record; in any case at most
one successful dispatch happens, and one successful dispatch leaves the
tag well recorded. -/
theorem remRun_daily_pass (now : DT) (orc : Orc) (rid : List Char)
    (r : Reminder) (D : List Char) (a : Int)
    (hdaily : hasSub dailyLit r.atS = true) (hD : now.dateStr = D)
    (hw1 : a ≤ now.ts) (hw2 : now.ts ≤ a + 7 * 86400) :
    ∀ (L : List (List Char × Reminder))
      (sts : List (List Char × SessionState)),
      (∀ q ∈ L, Prod.fst q = rid → Prod.snd q = r) →
      (L.map Prod.fst).Nodup →
      ((remTagGood sts r.umo (Tag.remindDaily r.id D) a →
          (remRun now orc L sts).2.2.countP (evIsRemindOk rid) = 0 ∧
          remTagGood (remRun now orc L sts).1 r.umo
            (Tag.remindDaily r.id D) a) ∧
        (remRun now orc L sts).2.2.countP (evIsRemindOk rid) ≤ 1 ∧
        ((remRun now orc L sts).2.2.countP (evIsRemindOk rid) = 1 →
          remTagGood (remRun now orc L sts).1 r.umo
            (Tag.remindDaily r.id D) a)) := by
  intro L
  induction L with
  | nil =>
    intro sts hvals hnd
    refine ⟨fun hg => ⟨rfl, hg⟩, by simp [remRun], fun h => ?_⟩
    simp [remRun] at h
  | cons hd rest ih =>
    obtain ⟨k, q⟩ := hd
    intro sts hvals hnd
    simp only [List.map_cons, List.nodup_cons] at hnd
    have hvrest : ∀ x ∈ rest, Prod.fst x = rid → Prod.snd x = r :=
      fun x hx => hvals x (List.mem_cons_of_mem _ hx)
    rw [remRun_cons, List.countP_append]
    by_cases hk : k = rid
    · subst hk
      have hq : r = q := (hvals (k, q) (List.mem_cons_self _ _) rfl).symm
      subst hq
      have hrid0 : k ∉ rest.map Prod.fst := hnd.1
      rcases remOne_daily_cases now orc k r sts hdaily with h0 | h0 |
        ⟨st, hst, hunf, h0⟩
      · rw [h0]
        have ihh := ih sts hvrest hnd.2
        simpa using ihh
      · rw [h0]
        have ihh := ih sts hvrest hnd.2
        have hc0 : ([Ev.remind k false]).countP (evIsRemindOk k) = 0 := by
          simp [evIsRemindOk]
        simpa [hc0] using ihh
      · rw [h0]
        have hgood1 : remTagGood (remOne now orc k r sts).1 r.umo
            (Tag.remindDaily r.id D) a := by
          rw [h0]
          obtain ⟨v', hv', hav'⟩ := goodTag_mark_self st
            (Tag.remindDaily r.id now.dateStr) now.ts a hw1
          exact ⟨st.mark_fired (Tag.remindDaily r.id now.dateStr) now.ts,
            v', alLookup_update_self _ _ _ _ hst, by rw [← hD]; exact hv',
            hav'⟩
        rw [h0] at hgood1
        have hgood2 := remRun_goodTag now orc rest
          (Tag.remindDaily r.id D) r.umo a hw1 hw2 _ hgood1
        have hcr : (remRun now orc rest
            (alUpdate sts r.umo (st.mark_fired
              (Tag.remindDaily r.id now.dateStr) now.ts))).2.2.countP
            (evIsRemindOk k) = 0 :=
          remRun_count_ok_zero now orc rest _ k hrid0
        have hc1 : ([Ev.remind k true]).countP (evIsRemindOk k) = 1 := by
          simp [evIsRemindOk]
        refine ⟨fun hg => ?_, ?_, fun _ => ?_⟩
        · obtain ⟨s, v, hs, hv, hav⟩ := hg
          have hss : s = st := by
            have := hs.symm.trans hst
            injection this
          subst hss
          have : s.has_fired (Tag.remindDaily r.id now.dateStr) = true := by
            unfold SessionState.has_fired
            rw [hD, hv]
            rfl
          rw [this] at hunf
          cases hunf
        · rw [hc1, hcr]
        · exact hgood2
    · have hc0 : (remOne now orc k q sts).2.2.countP (evIsRemindOk rid) = 0 := by
        rcases remOne_events now orc k q sts with h0 | ⟨b, h0⟩ <;>
          simp [h0, evIsRemindOk, hk]
      rw [hc0]
      have ihh := ih (remOne now orc k q sts).1 hvrest hnd.2
      refine ⟨fun hg => ?_, by simpa using ihh.2.1, fun h1 => ?_⟩
      · have hg1 := remOne_goodTag now orc k q sts
          (Tag.remindDaily r.id D) r.umo a hw1 hw2 hg
        have := ihh.1 hg1
        simpa using this
      · exact ihh.2.2 (by simpa using h1)

/-- The per-pass triple lifted to `check_reminders` (which only filters
the store after the loop). -/
theorem check_reminders_daily_pass (cfg : Config) (now : DT) (orc : Orc)
    (rid : List Char) (r : Reminder) (D : List Char) (a : Int)
    (hdaily : hasSub dailyLit r.atS = true) (hD : now.dateStr = D)
    (hw1 : a ≤ now.ts) (hw2 : now.ts ≤ a + 7 * 86400)
    (rems : List (List Char × Reminder))
    (sts : List (List Char × SessionState))
    (hvals : ∀ q ∈ rems, Prod.fst q = rid → Prod.snd q = r)
    (hnd : (rems.map Prod.fst).Nodup) :
    ((remTagGood sts r.umo (Tag.remindDaily r.id D) a →
        (check_reminders cfg now orc rems sts).2.2.countP
          (evIsRemindOk rid) = 0 ∧
        remTagGood (check_reminders cfg now orc rems sts).2.1 r.umo
          (Tag.remindDaily r.id D) a) ∧
      (check_reminders cfg now orc rems sts).2.2.countP
        (evIsRemindOk rid) ≤ 1 ∧
      ((check_reminders cfg now orc rems sts).2.2.countP
          (evIsRemindOk rid) = 1 →
        remTagGood (check_reminders cfg now orc rems sts).2.1 r.umo
          (Tag.remindDaily r.id D) a)) := by
  unfold check_reminders
  by_cases hen : cfg.enable_reminders = false
  · rw [if_pos hen]
    refine ⟨fun hg => ⟨by simp, hg⟩, by simp, fun h => ?_⟩
    simp at h
  · rw [if_neg hen]
    exact remRun_daily_pass now orc rid r D a hdaily hD hw1 hw2 rems sts
      hvals hnd

/-- Induction over a sequence of reminder passes on one calendar day:
the total number of successful dispatches of the recurring reminder is
at most one, and zero when the tag is already well recorded. -/
theorem remPasses_daily_aux (cfg : Config) (rid : List Char)
    (r : Reminder) (D : List Char) (a : Int)
    (hdaily : hasSub dailyLit r.atS = true) :
    ∀ (passes : List (DT × Orc)) (rems : List (List Char × Reminder))
      (sts : List (List Char × SessionState)),
      (∀ q ∈ rems, Prod.fst q = rid → Prod.snd q = r) →
      (rems.map Prod.fst).Nodup →
      (∀ pq ∈ passes, (Prod.fst pq).dateStr = D ∧
        a ≤ (Prod.fst pq).ts ∧ (Prod.fst pq).ts ≤ a + 7 * 86400) →
      ((remPasses cfg passes (rems, sts)).2.2.countP
          (evIsRemindOk rid) ≤ 1 ∧
        (remTagGood sts r.umo (Tag.remindDaily r.id D) a →
          (remPasses cfg passes (rems, sts)).2.2.countP
            (evIsRemindOk rid) = 0)) := by
  intro passes
  induction passes with
  | nil =>
    intro rems sts hvals hnd hp
    simp [remPasses]
  | cons pq rest ih =>
    obtain ⟨dt, orc⟩ := pq
    intro rems sts hvals hnd hp
    obtain ⟨hD, hw1, hw2⟩ := hp (dt, orc) (List.mem_cons_self _ _)
    have hprest : ∀ x ∈ rest, (Prod.fst x).dateStr = D ∧
        a ≤ (Prod.fst x).ts ∧ (Prod.fst x).ts ≤ a + 7 * 86400 :=
      fun x hx => hp x (List.mem_cons_of_mem _ hx)
    have htriple := check_reminders_daily_pass cfg dt orc rid r D a
      hdaily hD hw1 hw2 rems sts hvals hnd
    have hvals' : ∀ q ∈ (check_reminders cfg dt orc rems sts).1,
        Prod.fst q = rid → Prod.snd q = r := by
      intro q hq
      unfold check_reminders at hq
      by_cases hen : cfg.enable_reminders = false
      · rw [if_pos hen] at hq
        exact hvals q hq
      · rw [if_neg hen] at hq
        exact hvals q (List.mem_of_mem_filter hq)
    have hnd' : (((check_reminders cfg dt orc rems sts).1).map
        Prod.fst).Nodup := by
      unfold check_reminders
      by_cases hen : cfg.enable_reminders = false
      · rw [if_pos hen]; exact hnd
      · rw [if_neg hen]; exact nodup_keys_filter _ _ hnd
    have ihh := ih (check_reminders cfg dt orc rems sts).1
      (check_reminders cfg dt orc rems sts).2.1 hvals' hnd' hprest
    rw [remPasses_cons, List.countP_append]
    dsimp only
    constructor
    · by_cases h1 : (check_reminders cfg dt orc rems sts).2.2.countP
          (evIsRemindOk rid) = 1
      · have := ihh.2 (htriple.2.2 h1)
        omega
      · have h0 : (check_reminders cfg dt orc rems sts).2.2.countP
            (evIsRemindOk rid) = 0 := by
          have := htriple.2.1
          omega
        have := ihh.1
        omega
    · intro hg
      obtain ⟨hc0, hg'⟩ := htriple.1 hg
      have := ihh.2 hg'
      omega

/-- C5: over any sequence of reminder-check passes all happening on the
same calendar day `D` (their timestamps lying in a 7-day window, as any
same-day times do), a recurring (`|daily`) reminder dispatches a
proactive reminder message successfully at most once: the first success
marks the dated tag `remind_daily_<id>@<date>` and every later pass of
that day skips the reminder. -/
theorem recurring_once_per_day (cfg : Config) (passes : List (DT × Orc))
    (rems : List (List Char × Reminder))
    (sts : List (List Char × SessionState)) (rid : List Char)
    (r : Reminder) (D : List Char) (a : Int)
    (hvals : ∀ q ∈ rems, Prod.fst q = rid → Prod.snd q = r)
    (hnd : (rems.map Prod.fst).Nodup)
    (hdaily : hasSub dailyLit r.atS = true)
    (hp : ∀ pq ∈ passes, (Prod.fst pq).dateStr = D ∧
      a ≤ (Prod.fst pq).ts ∧ (Prod.fst pq).ts ≤ a + 7 * 86400) :
    (remPasses cfg passes (rems, sts)).2.2.countP (evIsRemindOk rid) ≤ 1 :=
  (remPasses_daily_aux cfg rid r D a hdaily passes rems sts hvals hnd hp).1

/-- Witness for C5: two passes in the 09:00 minute of the same day
dispatch `rem5` successfully at most once. -/
theorem recurring_once_per_day_witness :
    (remPasses {} [(nowA, orcT), (nowB, orcT)]
        ([(rid0, rem5)], [(u0, {})])).2.2.countP (evIsRemindOk rid0) ≤ 1 :=
  recurring_once_per_day {} [(nowA, orcT), (nowB, orcT)] [(rid0, rem5)]
    [(u0, {})] rid0 rem5 ['D'] 1000 (by decide) (by decide) (by decide)
    (by decide)

/-- The events of the firing part of the idle check are empty or one
idle event for its session. -/
theorem idleFire_events (cfg : Config) (profile : Option UserProfile)
    (umo : List Char) (st : SessionState) (now : DT) (orc : Orc) :
    (idleFire cfg profile umo st now orc).2 = [] ∨
    ∃ b, (idleFire cfg profile umo st now orc).2 = [Ev.idle umo b] := by
  unfold idleFire
  split
  · left; rfl
  · split
    · left; rfl
    · split
      · left; rfl
      · split
        · right; exact ⟨true, rfl⟩
        · right; exact ⟨false, rfl⟩

/-- The events of the idle check are empty or one idle event for its
session. -/
theorem check_idle_events (cfg : Config) (profile : Option UserProfile)
    (umo : List Char) (st : SessionState) (now : DT) (orc : Orc) :
    (check_idle_greeting cfg profile umo st now orc).2 = [] ∨
    ∃ b, (check_idle_greeting cfg profile umo st now orc).2 =
      [Ev.idle umo b] := by
  unfold check_idle_greeting
  split
  · left; rfl
  · split
    · split
      · rename_i p
        split
        · left; rfl
        · exact idleFire_events cfg (some p) umo st now orc
      · exact idleFire_events cfg none umo st now orc
    · exact idleFire_events cfg profile umo st now orc

/-- The events of the daily check are empty or one daily event for its
session. -/
theorem check_daily_events (cfg : Config) (umo : List Char)
    (st : SessionState) (p : UserProfile) (now : DT)
    (slots : List SlotInfo) (orc : Orc) :
    (check_daily_greetings cfg umo st p now slots orc).2 = [] ∨
    ∃ n b, (check_daily_greetings cfg umo st p now slots orc).2 =
      [Ev.daily umo n b] := by
  unfold check_daily_greetings
  split
  · left; rfl
  · rcases dailyLoop_events umo p now orc slots st with h | ⟨i, b, _, hev⟩
    · left; exact h
    · right; exact ⟨i.num, b, hev⟩

/-- Every event a session's tick step emits belongs to that session. -/
theorem tickOne_events_keyed (cfg : Config) (orc : Orc) (now : DT)
    (slots : List SlotInfo) (umo1 : List Char) (p : UserProfile)
    (sts : List (List Char × SessionState)) :
    ∀ e ∈ (tickOne cfg orc now slots umo1 p sts).2.2,
      (∃ b, e = Ev.idle umo1 b) ∨ (∃ n b, e = Ev.daily umo1 n b) := by
  unfold tickOne
  split
  · intro e he; simp at he
  · split
    · intro e he; simp at he
    · split
      · intro e he; simp at he
      · rename_i st hst
        split
        · intro e he; simp at he
        · intro e he
          dsimp only at he
          rcases List.mem_append.mp he with he | he
          · rcases check_idle_events cfg (some p) umo1 st now orc with
              h | ⟨b, h⟩
            · rw [h] at he; cases he
            · rw [h] at he
              left; exact ⟨b, List.mem_singleton.mp he⟩
          · rcases check_daily_events cfg umo1
                (check_idle_greeting cfg (some p) umo1 st now orc).1 p now
                slots orc with h | ⟨n, b, h⟩
            · rw [h] at he; cases he
            · rw [h] at he
              right; exact ⟨n, b, List.mem_singleton.mp he⟩

/-- A session's tick step emits no idle or daily event of another
session. -/
theorem tickOne_count_other (cfg : Config) (orc : Orc) (now : DT)
    (slots : List SlotInfo) (umo1 : List Char) (p : UserProfile)
    (sts : List (List Char × SessionState)) (u : List Char)
    (hne : u ≠ umo1) :
    (tickOne cfg orc now slots umo1 p sts).2.2.countP (evIsIdleFor u) = 0 ∧
    (tickOne cfg orc now slots umo1 p sts).2.2.countP
      (evIsDailyFor u) = 0 := by
  constructor <;> rw [List.countP_eq_zero] <;> intro e he <;>
    rcases tickOne_events_keyed cfg orc now slots umo1 p sts e he with
      ⟨b, rfl⟩ | ⟨n, b, rfl⟩ <;>
    simp only [evIsIdleFor, evIsDailyFor, decide_eq_true_eq,
      Bool.false_eq_true, not_false_eq_true] <;>
    try exact fun h => hne h.symm

/-- A session's tick step leaves every other session's state
unchanged. -/
theorem tickOne_state_other (cfg : Config) (orc : Orc) (now : DT)
    (slots : List SlotInfo) (umo1 : List Char) (p : UserProfile)
    (sts : List (List Char × SessionState)) (u : List Char)
    (hne : u ≠ umo1) :
    alLookup (tickOne cfg orc now slots umo1 p sts).2.1 u =
      alLookup sts u := by
  unfold tickOne
  split
  · rfl
  · split
    · rfl
    · split
      · rfl
      · split
        · rfl
        · dsimp only
          exact alLookup_update_ne _ _ _ _ hne

/-- Unfolding of the session phase on a cons cell. -/
theorem tickSessions_cons (cfg : Config) (orc : Orc) (now : DT)
    (slots : List SlotInfo) (umo : List Char) (p : UserProfile)
    (rest : List (List Char × UserProfile))
    (sts : List (List Char × SessionState)) :
    tickSessions cfg orc now slots ((umo, p) :: rest) sts =
      ((umo, (tickOne cfg orc now slots umo p sts).1) ::
          (tickSessions cfg orc now slots rest
            (tickOne cfg orc now slots umo p sts).2.1).1,
        (tickSessions cfg orc now slots rest
          (tickOne cfg orc now slots umo p sts).2.1).2.1,
        (tickOne cfg orc now slots umo p sts).2.2 ++
          (tickSessions cfg orc now slots rest
            (tickOne cfg orc now slots umo p sts).2.1).2.2) := rfl

/-- The session phase leaves the state of a session outside the profile
snapshot unchanged. -/
theorem tickSessions_state_notmem (cfg : Config) (orc : Orc) (now : DT)
    (slots : List SlotInfo) :
    ∀ (L : List (List Char × UserProfile))
      (sts : List (List Char × SessionState)) (umo : List Char),
      umo ∉ L.map Prod.fst →
      alLookup (tickSessions cfg orc now slots L sts).2.1 umo =
        alLookup sts umo := by
  intro L
  induction L with
  | nil => intro sts umo h; rfl
  | cons hd rest ih =>
    obtain ⟨u1, p1⟩ := hd
    intro sts umo h
    have h1 : umo ≠ u1 := by
      intro he
      subst he
      exact h (List.mem_cons_self _ _)
    have h2 : umo ∉ rest.map Prod.fst :=
      fun hx => h (List.mem_cons_of_mem _ hx)
    rw [tickSessions_cons]
    dsimp only
    rw [ih _ _ h2]
    exact tickOne_state_other cfg orc now slots u1 p1 sts umo h1

/-- The session phase produces no idle or daily event for a session
outside the profile snapshot. -/
theorem tickSessions_counts_notmem (cfg : Config) (orc : Orc) (now : DT)
    (slots : List SlotInfo) :
    ∀ (L : List (List Char × UserProfile))
      (sts : List (List Char × SessionState)) (umo : List Char),
      umo ∉ L.map Prod.fst →
      (tickSessions cfg orc now slots L sts).2.2.countP
        (evIsIdleFor umo) = 0 ∧
      (tickSessions cfg orc now slots L sts).2.2.countP
        (evIsDailyFor umo) = 0 := by
  intro L
  induction L with
  | nil => intro sts umo h; exact ⟨rfl, rfl⟩
  | cons hd rest ih =>
    obtain ⟨u1, p1⟩ := hd
    intro sts umo h
    have h1 : umo ≠ u1 := by
      intro he
      subst he
      exact h (List.mem_cons_self _ _)
    have h2 : umo ∉ rest.map Prod.fst :=
      fun hx => h (List.mem_cons_of_mem _ hx)
    rw [tickSessions_cons]
    dsimp only
    rw [List.countP_append, List.countP_append]
    obtain ⟨ha, hb⟩ := tickOne_count_other cfg orc now slots u1 p1 sts umo h1
    obtain ⟨hc, hd2⟩ := ih (tickOne cfg orc now slots u1 p1 sts).2.1 umo h2
    rw [ha, hb, hc, hd2]
    exact ⟨rfl, rfl⟩

/-- The reminder pass emits only reminder events: no idle or daily
event for any session. -/
theorem check_reminders_session_counts (cfg : Config) (now : DT)
    (orc : Orc) (rems : List (List Char × Reminder))
    (sts : List (List Char × SessionState)) (u : List Char) :
    (check_reminders cfg now orc rems sts).2.2.countP
      (evIsIdleFor u) = 0 ∧
    (check_reminders cfg now orc rems sts).2.2.countP
      (evIsDailyFor u) = 0 := by
  unfold check_reminders
  by_cases hen : cfg.enable_reminders = false
  · rw [if_pos hen]; exact ⟨rfl, rfl⟩
  · rw [if_neg hen]
    constructor <;> rw [List.countP_eq_zero] <;> intro e he <;>
      obtain ⟨k, b, rfl, hk⟩ := remRun_events_keyed now orc rems sts e he <;>
      simp [evIsIdleFor, evIsDailyFor]

/-- A subscribed session inside its quiet window is skipped before any
check runs: profile, states and events are untouched
(src/main.py:876-879). -/
theorem tickOne_quiet (cfg : Config) (orc : Orc) (now : DT)
    (slots : List SlotInfo) (umo : List Char) (p : UserProfile)
    (sts : List (List Char × SessionState))
    (hsub : p.subscribed = true)
    (hq : in_quiet now (effQuiet p cfg) = true) :
    tickOne cfg orc now slots umo p sts = (p, sts, []) := by
  unfold tickOne
  rw [if_neg (by simp [hsub]), if_pos hq]

/-- A subscribed session outside quiet hours whose auto-unsubscribe
condition holds gets its profile flipped and no trigger checks
(src/main.py:882-883). -/
theorem tickOne_unsub (cfg : Config) (orc : Orc) (now : DT)
    (slots : List SlotInfo) (umo : List Char) (p : UserProfile)
    (sts : List (List Char × SessionState)) (st : SessionState)
    (hsub : p.subscribed = true)
    (hq : in_quiet now (effQuiet p cfg) = false)
    (hst : alLookup sts umo = some st)
    (hun : should_auto_unsubscribe cfg st now = true) :
    tickOne cfg orc now slots umo p sts =
      ({ p with subscribed := false }, sts, []) := by
  unfold tickOne
  rw [if_neg (by simp [hsub]), if_neg (by simp [hq]), hst]
  dsimp only
  rw [if_pos hun]

/-- Mid-list lemma for C8: a subscribed in-quiet session keeps its
profile and state through the whole session phase and gets no idle or
daily dispatch. -/
theorem tickSessions_quiet_mid (cfg : Config) (orc : Orc) (now : DT)
    (slots : List SlotInfo) (umo : List Char) (p : UserProfile)
    (hsub : p.subscribed = true)
    (hq : in_quiet now (effQuiet p cfg) = true) :
    ∀ (L : List (List Char × UserProfile))
      (sts : List (List Char × SessionState)),
      (L.map Prod.fst).Nodup → (umo, p) ∈ L →
      alLookup (tickSessions cfg orc now slots L sts).1 umo = some p ∧
      alLookup (tickSessions cfg orc now slots L sts).2.1 umo =
        alLookup sts umo ∧
      (tickSessions cfg orc now slots L sts).2.2.countP
        (evIsIdleFor umo) = 0 ∧
      (tickSessions cfg orc now slots L sts).2.2.countP
        (evIsDailyFor umo) = 0 := by
  intro L
  induction L with
  | nil => intro sts hnd hmem; cases hmem
  | cons hd rest ih =>
    obtain ⟨u1, p1⟩ := hd
    intro sts hnd hmem
    simp only [List.map_cons, List.nodup_cons] at hnd
    rcases List.mem_cons.mp hmem with he | hm
    · obtain ⟨he1, he2⟩ : u1 = umo ∧ p1 = p := by
        have h1 := congrArg Prod.fst he
        have h2 := congrArg Prod.snd he
        exact ⟨h1.symm, h2.symm⟩
      subst he1
      subst he2
      rw [tickSessions_cons, tickOne_quiet cfg orc now slots u1 p1 sts
        hsub hq]
      dsimp only
      have hnm : u1 ∉ rest.map Prod.fst := hnd.1
      obtain ⟨hc, hd2⟩ := tickSessions_counts_notmem cfg orc now slots
        rest sts u1 hnm
      refine ⟨by simp [alLookup], ?_, ?_, ?_⟩
      · exact tickSessions_state_notmem cfg orc now slots rest sts u1 hnm
      · simpa using hc
      · simpa using hd2
    · have h1 : u1 ≠ umo := by
        intro he
        subst he
        exact hnd.1 (List.mem_map_of_mem Prod.fst hm)
      rw [tickSessions_cons]
      dsimp only
      obtain ⟨ha, hb, hc, hd2⟩ := ih (tickOne cfg orc now slots u1 p1
        sts).2.1 hnd.2 hm
      obtain ⟨he1, he2⟩ := tickOne_count_other cfg orc now slots u1 p1 sts
        umo (fun hh => h1 hh.symm)
      refine ⟨?_, ?_, ?_, ?_⟩
      · rw [show alLookup ((u1, (tickOne cfg orc now slots u1 p1 sts).1) ::
          (tickSessions cfg orc now slots rest
            (tickOne cfg orc now slots u1 p1 sts).2.1).1) umo =
          alLookup (tickSessions cfg orc now slots rest
            (tickOne cfg orc now slots u1 p1 sts).2.1).1 umo from by
          simp [alLookup, h1]]
        exact ha
      · rw [hb]
        exact tickOne_state_other cfg orc now slots u1 p1 sts umo
          (fun hh => h1 hh.symm)
      · rw [List.countP_append, he1, hc]
      · rw [List.countP_append, he2, hd2]

/-- Mid-list lemma for C4 (amended): a subscribed, non-quiet session
whose auto-unsubscribe condition holds comes out of the session phase
unsubscribed and without any idle or daily dispatch. -/
theorem tickSessions_unsub_mid (cfg : Config) (orc : Orc) (now : DT)
    (slots : List SlotInfo) (umo : List Char) (p : UserProfile)
    (st : SessionState)
    (hsub : p.subscribed = true)
    (hq : in_quiet now (effQuiet p cfg) = false)
    (hun : should_auto_unsubscribe cfg st now = true) :
    ∀ (L : List (List Char × UserProfile))
      (sts : List (List Char × SessionState)),
      (L.map Prod.fst).Nodup → (umo, p) ∈ L →
      alLookup sts umo = some st →
      alLookup (tickSessions cfg orc now slots L sts).1 umo =
        some { p with subscribed := false } ∧
      (tickSessions cfg orc now slots L sts).2.2.countP
        (evIsIdleFor umo) = 0 ∧
      (tickSessions cfg orc now slots L sts).2.2.countP
        (evIsDailyFor umo) = 0 := by
  intro L
  induction L with
  | nil => intro sts hnd hmem; cases hmem
  | cons hd rest ih =>
    obtain ⟨u1, p1⟩ := hd
    intro sts hnd hmem hst
    simp only [List.map_cons, List.nodup_cons] at hnd
    rcases List.mem_cons.mp hmem with he | hm
    · obtain ⟨he1, he2⟩ : u1 = umo ∧ p1 = p := by
        have h1 := congrArg Prod.fst he
        have h2 := congrArg Prod.snd he
        exact ⟨h1.symm, h2.symm⟩
      subst he1
      subst he2
      rw [tickSessions_cons, tickOne_unsub cfg orc now slots u1 p1 sts st
        hsub hq hst hun]
      dsimp only
      have hnm : u1 ∉ rest.map Prod.fst := hnd.1
      obtain ⟨hc, hd2⟩ := tickSessions_counts_notmem cfg orc now slots
        rest sts u1 hnm
      refine ⟨by simp [alLookup], by simpa using hc, by simpa using hd2⟩
    · have h1 : u1 ≠ umo := by
        intro he
        subst he
        exact hnd.1 (List.mem_map_of_mem Prod.fst hm)
      rw [tickSessions_cons]
      dsimp only
      have hst' : alLookup (tickOne cfg orc now slots u1 p1 sts).2.1 umo =
          some st := by
        rw [tickOne_state_other cfg orc now slots u1 p1 sts umo
          (fun hh => h1 hh.symm)]
        exact hst
      obtain ⟨ha, hc, hd2⟩ := ih (tickOne cfg orc now slots u1 p1 sts).2.1
        hnd.2 hm hst'
      obtain ⟨he1, he2⟩ := tickOne_count_other cfg orc now slots u1 p1 sts
        umo (fun hh => h1 hh.symm)
      refine ⟨?_, ?_, ?_⟩
      · rw [show alLookup ((u1, (tickOne cfg orc now slots u1 p1 sts).1) ::
          (tickSessions cfg orc now slots rest
            (tickOne cfg orc now slots u1 p1 sts).2.1).1) umo =
          alLookup (tickSessions cfg orc now slots rest
            (tickOne cfg orc now slots u1 p1 sts).2.1).1 umo from by
          simp [alLookup, h1]]
        exact ha
      · rw [List.countP_append, he1, hc]
      · rw [List.countP_append, he2, hd2]

/-- C8 (amended): for a subscribed session whose effective quiet window
contains the current time, the tick's per-session phase skips all of its
per-session triggers: its profile is unchanged, its session state is
unchanged by the session phase, and the whole tick dispatches no idle
and no daily message for it.  (The reminder phase is not suppressed by
quiet hours and may still dispatch and mark reminder tags for the
session.) -/
theorem quiet_skips_session (cfg : Config) (orc : Orc) (d : TickData)
    (now : DT) (umo : List Char) (p : UserProfile)
    (hnd : (d.profiles.map Prod.fst).Nodup)
    (hmem : (umo, p) ∈ d.profiles)
    (hsub : p.subscribed = true)
    (hq : in_quiet now (effQuiet p cfg) = true) :
    alLookup (tick cfg orc d now).profiles umo = some p ∧
    alLookup (tickSessions cfg orc now (parse_daily_slots cfg now)
        d.profiles d.states).2.1 umo = alLookup d.states umo ∧
    (tick cfg orc d now).events.countP (evIsIdleFor umo) = 0 ∧
    (tick cfg orc d now).events.countP (evIsDailyFor umo) = 0 := by
  obtain ⟨ha, hb, hc, hd2⟩ := tickSessions_quiet_mid cfg orc now
    (parse_daily_slots cfg now) umo p hsub hq d.profiles d.states hnd hmem
  unfold tick
  by_cases hen : cfg.enable = false
  · rw [if_pos hen]
    exact ⟨alLookup_mem_nodup _ _ _ hmem hnd, hb, rfl, rfl⟩
  · rw [if_neg hen]
    dsimp only
    obtain ⟨hr1, hr2⟩ := check_reminders_session_counts cfg now orc
      d.reminders (tickSessions cfg orc now (parse_daily_slots cfg now)
        d.profiles d.states).2.1 umo
    refine ⟨ha, hb, ?_, ?_⟩
    · rw [List.countP_append, hc, hr1]
    · rw [List.countP_append, hd2, hr2]

/-- Witness for C8 (amended): the quiet session of `d8` keeps profile
and per-session state, with no idle or daily dispatch, even though a
reminder fires in the same tick. -/
theorem quiet_skips_session_witness :
    alLookup (tick cfg8 orcT d8 now8).profiles u0 =
      some { subscribed := true } ∧
    alLookup (tickSessions cfg8 orcT now8 (parse_daily_slots cfg8 now8)
        d8.profiles d8.states).2.1 u0 = alLookup d8.states u0 ∧
    (tick cfg8 orcT d8 now8).events.countP (evIsIdleFor u0) = 0 ∧
    (tick cfg8 orcT d8 now8).events.countP (evIsDailyFor u0) = 0 :=
  quiet_skips_session cfg8 orcT d8 now8 u0 { subscribed := true }
    (by decide) (by decide) (by decide) (by decide)

/-- Counterexample for C8: with a due recurring reminder, the tick of a
session inside its quiet window still dispatches for that session and
records a fired tag in its session state — the claim's "no fired tag
recorded, no field mutated" fails on the reminder phase. -/
theorem quiet_session_mutated_cex :
    in_quiet now8 (effQuiet { subscribed := true } cfg8) = true ∧
    alLookup d8.profiles u0 = some { subscribed := true } ∧
    Ev.remind rid0 true ∈ (tick cfg8 orcT d8 now8).events ∧
    alLookup (tick cfg8 orcT d8 now8).states u0 ≠ alLookup d8.states u0 ∧
    (match alLookup (tick cfg8 orcT d8 now8).states u0 with
      | some s => s.has_fired (Tag.remindDaily rid0 ['D'])
      | none => false) = true := by
  refine ⟨by decide, rfl, by decide, by decide, by decide⟩

/-- C4 (amended): for a subscribed session evaluated in a tick (plugin
enabled, session outside its effective quiet window — the quiet check
runs first in the code), when `maxNoReplyDays > 0`, the session's
`lastUserReplyTs` is positive, and the floor of elapsed days is at least
`maxNoReplyDays`, that tick sets the profile's `subscribed` flag to
false and dispatches no idle and no daily message for the session. -/
theorem auto_unsub_tick (cfg : Config) (orc : Orc) (d : TickData)
    (now : DT) (umo : List Char) (p : UserProfile) (st : SessionState)
    (hen : cfg.enable = true)
    (hnd : (d.profiles.map Prod.fst).Nodup)
    (hmem : (umo, p) ∈ d.profiles)
    (hsub : p.subscribed = true)
    (hq : in_quiet now (effQuiet p cfg) = false)
    (hst : alLookup d.states umo = some st)
    (hmax : 0 < cfg.max_no_reply_days)
    (hreply : 0 < st.last_user_reply_ts)
    (hdays : cfg.max_no_reply_days ≤
      Int.fdiv (now.ts - st.last_user_reply_ts) 86400) :
    alLookup (tick cfg orc d now).profiles umo =
      some { p with subscribed := false } ∧
    (tick cfg orc d now).events.countP (evIsIdleFor umo) = 0 ∧
    (tick cfg orc d now).events.countP (evIsDailyFor umo) = 0 := by
  have hun : should_auto_unsubscribe cfg st now = true := by
    unfold should_auto_unsubscribe
    rw [if_neg (by omega), if_pos hreply]
    simp [hdays]
  obtain ⟨ha, hc, hd2⟩ := tickSessions_unsub_mid cfg orc now
    (parse_daily_slots cfg now) umo p st hsub hq hun d.profiles d.states
    hnd hmem hst
  unfold tick
  rw [if_neg (by simp [hen])]
  dsimp only
  obtain ⟨hr1, hr2⟩ := check_reminders_session_counts cfg now orc
    d.reminders (tickSessions cfg orc now (parse_daily_slots cfg now)
      d.profiles d.states).2.1 umo
  refine ⟨ha, ?_, ?_⟩
  · rw [List.countP_append, hc, hr1]
  · rw [List.countP_append, hd2, hr2]

/-- Witness for C4 (amended): a session 4 whole days past its last
reply with `maxNoReplyDays = 3` is unsubscribed by the tick, with no
idle or daily dispatch. -/
theorem auto_unsub_tick_witness :
    alLookup (tick cfg4 orcT
        ⟨[(u0, { subscribed := true })],
          [(u0, { last_user_reply_ts := 86400 })], []⟩
        ⟨['D'], 0, 432000⟩).profiles u0 =
      some { subscribed := false } ∧
    (tick cfg4 orcT
        ⟨[(u0, { subscribed := true })],
          [(u0, { last_user_reply_ts := 86400 })], []⟩
        ⟨['D'], 0, 432000⟩).events.countP (evIsIdleFor u0) = 0 ∧
    (tick cfg4 orcT
        ⟨[(u0, { subscribed := true })],
          [(u0, { last_user_reply_ts := 86400 })], []⟩
        ⟨['D'], 0, 432000⟩).events.countP (evIsDailyFor u0) = 0 :=
  auto_unsub_tick cfg4 orcT
    ⟨[(u0, { subscribed := true })],
      [(u0, { last_user_reply_ts := 86400 })], []⟩
    ⟨['D'], 0, 432000⟩ u0 { subscribed := true }
    { last_user_reply_ts := 86400 } (by decide) (by decide) (by decide)
    (by decide) (by decide) (by decide) (by decide) (by decide) (by decide)

/-- Counterexample for C4: a subscribed session evaluated by the tick
(outside quiet hours) with `maxNoReplyDays = 3 > 0` and a whole-day gap
of 4 days between now and `lastUserReplyTs` (which is 0) is NOT
unsubscribed: the code additionally requires `lastUserReplyTs > 0`
(src/main.py:1022), which the claim omits. -/
theorem auto_unsub_not_applied_cex :
    0 < cfg4.max_no_reply_days ∧
    cfg4.max_no_reply_days ≤
      Int.fdiv (now4.ts - ({} : SessionState).last_user_reply_ts) 86400 ∧
    alLookup d4.states u0 = some ({} : SessionState) ∧
    in_quiet now4 (effQuiet { subscribed := true } cfg4) = false ∧
    alLookup d4.profiles u0 = some { subscribed := true } ∧
    alLookup (tick cfg4 orcT d4 now4).profiles u0 =
      some { subscribed := true } := by
  refine ⟨by decide, by decide, rfl, by decide, rfl, by decide⟩

/-- Witness for C10: the scenario with no session state, concretely. -/
theorem reminder_no_state_skipped_witness :
    alLookup (check_reminders {} now2 orcT [(rid0, rem2)] []).1 rid0 =
      some rem2 ∧
    (check_reminders {} now2 orcT [(rid0, rem2)] []).2.2.countP
      (evIsRemind rid0) = 0 ∧
    alLookup (check_reminders {} now2 orcT [(rid0, rem2)] []).2.1
      rem2.umo = none :=
  reminder_no_state_skipped {} now2 orcT [(rid0, rem2)] [] rid0 rem2
    (by decide) (by decide) (by decide)

end Conversa
